import Mathlib

/-!
# Verification of the `ha_octopus_intelligent` off-peak / dispatch engine

A shallow embedding of the core logic of the `octopus_intelligent`
Home Assistant integration, translated from
`custom_components/octopus_intelligent/util.py`,
`custom_components/octopus_intelligent/octopus_intelligent_system.py` and
`custom_components/octopus_intelligent/graphql_client.py`.

Modelling conventions:
* Instants (`datetime` values) are `Int` minutes since an arbitrary epoch
  that falls at 00:00 UTC on a Monday.  All configured off-peak boundaries
  are whole minutes, so minute granularity is exact for every comparison
  the code performs.
* The local timezone is a fixed offset `tz` in minutes east of UTC
  (no DST transitions are modelled).
* Python `None` is `Option.none`; Python's falsy test on an optional
  string (`if x:`) is `isTruthy`; Python's `x or y` on optional strings is
  `pyOr`.
* A timestamp field that failed to parse (`_parse_dispatch_datetime`
  returning `None`) is a `none` in the corresponding `Option Int` field.
-/

/-- Python truthiness of an optional string: `None` and `""` are falsy. -/
def isTruthy : Option String → Bool
  | none => false
  | some s => !(s == "")

/-- Python `a or b` on optional strings (`None` and `""` are falsy). -/
def pyOr (a b : Option String) : Option String :=
  match a with
  | none => b
  | some s => if s = "" then b else some s

/-- Lexicographic (code-point) comparison of character lists; this is the
comparison Python performs for `str < str`. -/
def charListLt : List Char → List Char → Bool
  | [], [] => false
  | [], _ :: _ => true
  | _ :: _, [] => false
  | a :: as, b :: bs => if a < b then true else if b < a then false else charListLt as bs

/-- Python `s < t` on strings. -/
def pyStrLt (s t : String) : Bool := charListLt s.data t.data

/-! ## `util.merge_and_sort_time_ranges`

`TimeRange` embeds the `{"start": ..., "end": ...}` dictionaries; the
Python key `"end"` is the field `stop` (`end` is reserved in Lean). -/

structure TimeRange where
  start : Int
  stop : Int
deriving DecidableEq, Repr

/-- One step of Python's stable `sorted(..., key=lambda r: r["start"])`:
insert `r` before the first element whose start is not smaller. -/
def insert_by_start (r : TimeRange) : List TimeRange → List TimeRange
  | [] => [r]
  | x :: xs => if x.start < r.start then x :: insert_by_start r xs else r :: x :: xs

/-- Python's `sorted(date_ranges, key=lambda r: r["start"])` — a stable
sort by start (any stable sort computes the same list). -/
def sort_by_start : List TimeRange → List TimeRange
  | [] => []
  | r :: rest => insert_by_start r (sort_by_start rest)

/-- The merging loop of `merge_and_sort_time_ranges`: `current` plays the
role of `merged_date_ranges[-1]`, which Python mutates in place. -/
def merge_ranges_loop (current : TimeRange) : List TimeRange → List TimeRange
  | [] => [current]
  | next :: rest =>
    if next.start ≤ current.stop then
      merge_ranges_loop { current with stop := max current.stop next.stop } rest
    else
      current :: merge_ranges_loop next rest

/-- Embeds `util.merge_and_sort_time_ranges`. -/
def merge_and_sort_time_ranges (date_ranges : List TimeRange) : List TimeRange :=
  match sort_by_start date_ranges with
  | [] => []
  | r :: rest => merge_ranges_loop r rest

/-! ## `OctopusIntelligentSystem` data model

`Dispatch` embeds one entry of `self.data["plannedDispatches"]` as seen by
the query functions: `startDtUtc`/`endDtUtc` hold the result of
`_parse_dispatch_datetime` on the stored timestamp string (`none` models a
missing or unparseable timestamp), `source` is `meta["source"]` (`none`
models Python `None`; normalization always creates the key) and
`deviceId` is `meta["deviceId"]`. -/

structure Dispatch where
  startDtUtc : Option Int
  endDtUtc : Option Int
  source : Option String
  deviceId : Option String
deriving DecidableEq, Repr

/-- The raw device descriptor fields read by
`util.format_equipment_name` (each `none` models an absent key or a
`None` value). -/
structure DeviceInfo where
  label : Option String := none
  make : Option String := none
  vehicleMake : Option String := none
  chargePointMake : Option String := none
  model : Option String := none
  vehicleModel : Option String := none
  chargePointModel : Option String := none
  provider : Option String := none
  id : Option String := none
deriving DecidableEq, Repr

/-- The `chargingPreferences` payload fields read by
`get_ready_time_summary` and the target SOC/time getters. -/
structure Preferences where
  weekdayTargetTime : Option String := none
  weekendTargetTime : Option String := none
  weekdayTargetSoc : Option Int := none
  weekendTargetSoc : Option Int := none
  minimumSoc : Option Int := none
  maximumSoc : Option Int := none
deriving DecidableEq, Repr

/-- One value of `self.data["devices"][device_id]`, restricted to the
fields the verified query functions read: `statusIsSuspended` is
`status.get("isSuspended", False)` as a `Bool`, `device` the raw
descriptor and `preferences` the charging preferences. -/
structure DeviceState where
  statusIsSuspended : Bool
  device : DeviceInfo := {}
  preferences : Preferences := {}
deriving DecidableEq, Repr

/-- The coordinator payload `self.data` (only the parts the query
functions read).  `devices` is an association list in insertion order. -/
structure SystemData where
  devices : List (String × DeviceState)
  plannedDispatches : List Dispatch
  primary_equipment_id : Option String
deriving DecidableEq, Repr

/-- The `OctopusIntelligentSystem` state read by the query functions.
`off_peak_start`/`off_peak_end` are `self._off_peak_start`/`_end` in whole
minutes since local midnight (the code reads them as `td.seconds // 60`),
`tz` is the fixed local-timezone offset in minutes east of UTC, and
`data` is `self.data` (`none` models `self.data is None`). -/
structure System where
  tz : Int
  off_peak_start : Int
  off_peak_end : Int
  primary_equipment_id : Option String
  data : Option SystemData
deriving DecidableEq, Repr

/-- Embeds `(self.data or {}).get("plannedDispatches", [])`. -/
def plannedOf (sys : System) : List Dispatch :=
  match sys.data with
  | some d => d.plannedDispatches
  | none => []

/-- Embeds `(self.data or {}).get("devices", {})`. -/
def devicesOf (sys : System) : List (String × DeviceState) :=
  match sys.data with
  | some d => d.devices
  | none => []

/-- Embeds `OctopusIntelligentSystem.get_primary_equipment_id`. -/
def get_primary_equipment_id (sys : System) : Option String :=
  let data_primary : Option String :=
    match sys.data with
    | some d => d.primary_equipment_id
    | none => none
  pyOr data_primary sys.primary_equipment_id

/-- Embeds `OctopusIntelligentSystem._get_device_state` (also exposed as
`get_device_state`). -/
def get_device_state (sys : System) (device_id : Option String) : Option DeviceState :=
  let lookup_id := pyOr device_id (get_primary_equipment_id sys)
  match lookup_id with
  | some lid => if lid = "" then none else List.lookup lid (devicesOf sys)
  | none => none

/-- Embeds `OctopusIntelligentSystem.get_supported_device_ids`. -/
def get_supported_device_ids (sys : System) : List String :=
  (devicesOf sys).map Prod.fst

/-- Embeds `OctopusIntelligentSystem.is_smart_charging_enabled`. -/
def is_smart_charging_enabled (sys : System) (device_id : Option String) : Bool :=
  match get_device_state sys device_id with
  | none => false
  | some st => !st.statusIsSuspended

/-- The per-dispatch test of `is_charging_now`: the source filter
(`source is None or meta.get("source", "") == source`), then the
timestamp parse guard, then the bracket test `startUtc <= utcnow <=
endUtc`. -/
def charging_dispatch_test (source : Option String) (utcnow : Int) (st : Dispatch) : Bool :=
  if source.isNone || st.source == source then
    match st.startDtUtc, st.endDtUtc with
    | some s, some e => decide (s ≤ utcnow) && decide (utcnow ≤ e)
    | _, _ => false
  else false

/-- Embeds `OctopusIntelligentSystem.is_charging_now`.  `now` is
`dt_util.utcnow()`; the loop with early `return True` is the `any` of
`charging_dispatch_test` over the (optionally device-filtered) planned
dispatches. -/
def is_charging_now (sys : System) (source : Option String)
    (now minutes_offset : Int) (device_id : Option String) : Bool :=
  (if isTruthy device_id then (plannedOf sys).filter (fun st => st.deviceId == device_id)
   else plannedOf sys).any (charging_dispatch_test source (now + minutes_offset))

/-- Embeds `OctopusIntelligentSystem.is_off_peak_time_now`.  `now` is the instant
of `dt_util.now()`; `now.hour * 60 + now.minute` is the local minute of
day, i.e. `(now + tz) mod 1440`. -/
def is_off_peak_time_now (sys : System) (now minutes_offset : Int) : Bool :=
  let offpeak_start_mins := sys.off_peak_start
  let offpeak_end_mins := sys.off_peak_end
  let now_mins := (now + minutes_offset + sys.tz).emod 1440
  if offpeak_end_mins < offpeak_start_mins then
    decide (offpeak_start_mins ≤ now_mins) || decide (now_mins ≤ offpeak_end_mins)
  else
    decide (offpeak_start_mins ≤ now_mins) && decide (now_mins ≤ offpeak_end_mins)

/-- Embeds `OctopusIntelligentSystem.is_off_peak_now`. -/
def is_off_peak_now (sys : System) (now minutes_offset : Int) : Bool :=
  is_off_peak_time_now sys now minutes_offset ||
    is_charging_now sys (some "smart-charge") now minutes_offset none

/-- The fixed-window instances of `next_offpeak_range_utc`:
`localdate` is the UTC instant of the most recent local midnight, and the
three candidate ranges are re-paired across midnight when the window
wraps (`fixed_start_b1 > fixed_end_b1`). -/
def base_offpeak_ranges (sys : System) (utcnow : Int) : List TimeRange :=
  let localdate := utcnow - (utcnow + sys.tz).emod 1440
  let fixed_start_b1 := localdate - 1440 + sys.off_peak_start
  let fixed_end_b1 := localdate - 1440 + sys.off_peak_end
  let fixed_start_0 := localdate + sys.off_peak_start
  let fixed_end_0 := localdate + sys.off_peak_end
  let fixed_start_a1 := localdate + 1440 + sys.off_peak_start
  let fixed_end_a1 := localdate + 1440 + sys.off_peak_end
  let fixed_end_a2 := localdate + 2880 + sys.off_peak_end
  if fixed_end_b1 < fixed_start_b1 then
    [ { start := fixed_start_b1, stop := fixed_end_0 },
      { start := fixed_start_0, stop := fixed_end_a1 },
      { start := fixed_start_a1, stop := fixed_end_a2 } ]
  else
    [ { start := fixed_start_b1, stop := fixed_end_b1 },
      { start := fixed_start_0, stop := fixed_end_0 },
      { start := fixed_start_a1, stop := fixed_end_a1 } ]

/-- The `targeted_dispatches` list built by `next_offpeak_range_utc` when
a device id was requested. -/
def targeted_dispatches (sys : System) (device_id : Option String) : List TimeRange :=
  (plannedOf sys).filterMap (fun st =>
    if st.source == some "smart-charge" then
      match st.startDtUtc, st.endDtUtc with
      | some s, some e =>
        if st.deviceId == device_id then some { start := s, stop := e } else none
      | _, _ => none
    else none)

/-- The `combined_dispatches` list built by `next_offpeak_range_utc` for
the combined (no-device-id) view: dispatches of devices whose smart
charging is suspended are skipped. -/
def combined_dispatches (sys : System) : List TimeRange :=
  (plannedOf sys).filterMap (fun st =>
    if st.source == some "smart-charge" then
      match st.startDtUtc, st.endDtUtc with
      | some s, some e =>
        if isTruthy st.deviceId && !(is_smart_charging_enabled sys st.deviceId) then none
        else some { start := s, stop := e }
      | _, _ => none
    else none)

/-- The `candidate_ranges` of `next_offpeak_range_utc`. -/
def offpeak_candidate_ranges (sys : System) (utcnow : Int)
    (device_id : Option String) : List TimeRange :=
  if isTruthy device_id then
    match targeted_dispatches sys device_id with
    | [] => base_offpeak_ranges sys utcnow
    | t => t
  else
    base_offpeak_ranges sys utcnow ++ combined_dispatches sys

/-- The selection test of `next_offpeak_range_utc`: the range contains
`utcnow` or starts at or after it. -/
def offpeak_pred (utcnow : Int) (r : TimeRange) : Bool :=
  (decide (r.start ≤ utcnow) && decide (utcnow ≤ r.stop)) || decide (utcnow ≤ r.start)

/-- Embeds `OctopusIntelligentSystem.next_offpeak_range_utc`. -/
def next_offpeak_range_utc (sys : System) (now minutes_offset : Int)
    (device_id : Option String) : Option TimeRange :=
  let utcnow := now + minutes_offset
  let candidates := offpeak_candidate_ranges sys utcnow device_id
  if candidates.isEmpty then none
  else (merge_and_sort_time_ranges candidates).find? (offpeak_pred utcnow)

/-- Embeds `OctopusIntelligentSystem.next_offpeak_start_utc`. -/
def next_offpeak_start_utc (sys : System) (now minutes_offset : Int)
    (device_id : Option String) : Option Int :=
  (next_offpeak_range_utc sys now minutes_offset device_id).map TimeRange.start

/-- Embeds `OctopusIntelligentSystem.next_offpeak_end_utc`. -/
def next_offpeak_end_utc (sys : System) (now minutes_offset : Int)
    (device_id : Option String) : Option Int :=
  (next_offpeak_range_utc sys now minutes_offset device_id).map TimeRange.stop

/-- The running `next_start` update of
`current_intelligent_charge_start_utc`. -/
def next_start_update (next_start : Option Int) (s : Int) : Option Int :=
  match next_start with
  | none => some s
  | some ns => if s < ns then some s else some ns

/-- The dispatch loop of `current_intelligent_charge_start_utc`:
returns the start of the first smart-charge dispatch bracketing `now`,
else recurses tracking the earliest future start. -/
def charge_start_loop (sys : System) (now : Int) (device_id : Option String) :
    List Dispatch → Option Int → Option Int
  | [], next_start =>
    match next_start with
    | some s => some s
    | none => next_offpeak_start_utc sys now 0 device_id
  | st :: rest, next_start =>
    if st.source == some "smart-charge" then
      if isTruthy device_id && !(st.deviceId == device_id) then
        charge_start_loop sys now device_id rest next_start
      else
        match st.startDtUtc, st.endDtUtc with
        | some s, some e =>
          if s ≤ now ∧ now ≤ e then some s
          else if now < s then charge_start_loop sys now device_id rest (next_start_update next_start s)
          else charge_start_loop sys now device_id rest next_start
        | _, _ => charge_start_loop sys now device_id rest next_start
    else charge_start_loop sys now device_id rest next_start

/-- Embeds `OctopusIntelligentSystem.current_intelligent_charge_start_utc`. -/
def current_intelligent_charge_start_utc (sys : System) (now : Int)
    (device_id : Option String) : Option Int :=
  charge_start_loop sys now device_id (plannedOf sys) none

/-- The C1 scenario system: off-peak window 23:30–05:30 local,
Europe/London on 2025-06-01 (BST, UTC+1), no data fetched yet (hence no
dispatches).  Instants are minutes relative to 2025-06-01 00:00 UTC, so
"2025-06-01 23:45 local" = "2025-06-01 22:45 UTC" is the instant 1365. -/
def sysC1 : System :=
  { tz := 60, off_peak_start := 23 * 60 + 30, off_peak_end := 5 * 60 + 30,
    primary_equipment_id := none, data := none }

/-- The plannedDispatches list with every dispatch of a
suspended-smart-charging device removed (the rows that the combined view
of `next_offpeak_range_utc` skips). -/
def dropSuspendedDispatches (sys : System) : System :=
  { sys with data := sys.data.map (fun d =>
      { d with plannedDispatches := d.plannedDispatches.filter (fun st =>
          !(isTruthy st.deviceId && !(is_smart_charging_enabled sys st.deviceId))) }) }

/-- The same system with the device-state map replaced (used to model a
change of suspension flags only). -/
def setDevices (sys : System) (ds : List (String × DeviceState)) : System :=
  { sys with data := sys.data.map (fun d => { d with devices := ds }) }

/-- The C4 witness system: one supported device `"ev"` whose smart
charging is suspended, with one upcoming smart-charge dispatch. -/
def sysC4 : System :=
  { tz := 0, off_peak_start := 0, off_peak_end := 60,
    primary_equipment_id := none,
    data := some
      { devices := [("ev", { statusIsSuspended := true })],
        plannedDispatches :=
          [{ startDtUtc := some 100, endDtUtc := some 160,
             source := some "smart-charge", deviceId := some "ev" }],
        primary_equipment_id := some "ev" } }

/-- A dispatch row whose two timestamps both parsed. -/
def dispatch_parseable (st : Dispatch) : Bool :=
  st.startDtUtc.isSome && st.endDtUtc.isSome

/-- The plannedDispatches list with every row whose start or end
timestamp failed to parse removed. -/
def dropMalformedDispatches (sys : System) : System :=
  { sys with data := sys.data.map (fun d =>
      { d with plannedDispatches := d.plannedDispatches.filter dispatch_parseable }) }

/-- The C7 system: one planned smart-charge dispatch over UTC instants
`[0, 30]`. -/
def sysC7 : System :=
  { tz := 0, off_peak_start := 1410, off_peak_end := 330,
    primary_equipment_id := none,
    data := some
      { devices := [("ev", { statusIsSuspended := false })],
        plannedDispatches :=
          [{ startDtUtc := some 0, endDtUtc := some 30,
             source := some "smart-charge", deviceId := some "ev" }],
        primary_equipment_id := some "ev" } }

/-- The eligible dispatch rows of
`current_intelligent_charge_start_utc`: smart-charge source, device
filter passed, both timestamps parsed, as `(start, end)` pairs in list
order. -/
def eligible_charge_dispatches (device_id : Option String) (l : List Dispatch) :
    List (Int × Int) :=
  l.filterMap (fun st =>
    if st.source == some "smart-charge" then
      if isTruthy device_id && !(st.deviceId == device_id) then none
      else
        match st.startDtUtc, st.endDtUtc with
        | some s, some e => some (s, e)
        | _, _ => none
    else none)

/-- The `next_start` accumulation of the loop, restated over the eligible
pairs. -/
def future_start_fold (now : Int) : Option Int → List (Int × Int) → Option Int
  | acc, [] => acc
  | acc, p :: rest =>
    if now < p.1 then future_start_fold now (next_start_update acc p.1) rest
    else future_start_fold now acc rest

/-! ## Planned-dispatch normalization (`_normalise_planned_dispatches`,
`_update_planned_dispatch_sources`)

`DispatchMeta.source` is presence-aware: the outer `Option` is key
presence in the `meta` dict (`none` = key absent, as `dict.setdefault`
distinguishes) and the inner `Option String` is the stored value (`none` =
Python `None`).  `_normalise_planned_dispatches` always creates the key,
so its entries always carry an outer `some`. -/

structure DispatchMeta where
  source : Option (Option String)
  location : Option String
  deviceId : String
deriving DecidableEq, Repr

/-- One normalized planned-dispatch entry.  The canonical timestamp
string produced by `_format_dispatch_time` is carried through as-is (see
`format_dispatch_time`). -/
structure NormalisedDispatch where
  chargeKwh : Option String
  startDtUtc : Option String
  endDtUtc : Option String
  meta : DispatchMeta
deriving DecidableEq, Repr

/-- One raw entry of `flexPlannedDispatches` (the fields the
normalization reads). -/
structure RawPlannedDispatch where
  energyAddedKwh : Option String
  start : Option String
  stop : Option String
  type : Option String
  metaSource : Option String
  metaLocation : Option String
deriving DecidableEq, Repr

/-- Embeds `PersistentData` (the dispatch-source memory):
`last_seen_planned_dispatch_sources` is the per-device map (association
list) and `last_seen_planned_dispatch_source` the global fallback
(`""` when never set). -/
structure PersistentData where
  last_seen_planned_dispatch_sources : List (String × String)
  last_seen_planned_dispatch_source : String
deriving DecidableEq, Repr

/-- Insert-or-replace in the per-device source map (Python dict item
assignment). -/
def assocSet : List (String × String) → String → String → List (String × String)
  | [], k, v => [(k, v)]
  | (k', v') :: rest, k, v =>
    if k' = k then (k, v) :: rest else (k', v') :: assocSet rest k v

/-- Embeds `OctopusIntelligentSystem._format_dispatch_time`, modulo the
`datetime` round-trip: the falsy guard (`None`/`""` become `None`) is
embedded; the ISO-8601 reparse/reformat (or the `T`→space fallback) is a
string-to-string transformation that no verified claim depends on, so
the embedding carries the value through unchanged. -/
def format_dispatch_time (value : Option String) : Option String :=
  match value with
  | none => none
  | some s => if s = "" then none else some s

/-- Embeds `OctopusIntelligentSystem._format_energy`: `None` stays `None`;
other values are rendered with `f"{value}"` (identity on the string
representation carried here). -/
def format_energy (value : Option String) : Option String := value

/-- Embeds `any(not src for src in all_sources)`: a falsy source (`None` or
`""`). -/
def source_falsy (s : Option String) : Bool := s.getD "" == ""

/-- Embeds `OctopusIntelligentSystem._update_planned_dispatch_sources`.
Returns the updated persistent data and the (possibly source-backfilled)
dispatch list.  `meta.setdefault("source", fallback)` only inserts when
the `source` key is absent. -/
def update_planned_dispatch_sources (pd : PersistentData) (device_id : String)
    (dispatches : List NormalisedDispatch) :
    PersistentData × List NormalisedDispatch :=
  if dispatches.isEmpty then (pd, dispatches)
  else
    let all_sources : List (Option String) :=
      dispatches.map (fun d => d.meta.source.getD (some ""))
    let good_sources : List String :=
      ((all_sources.filterMap id).filter (fun s => !(s == ""))).dedup
    let selected_source : String :=
      match good_sources with
      | [s] => s
      | _ => ""
    let pd' : PersistentData :=
      if selected_source = "" then pd
      else
        { last_seen_planned_dispatch_sources :=
            assocSet pd.last_seen_planned_dispatch_sources device_id selected_source,
          last_seen_planned_dispatch_source := selected_source }
    let fallback_source : String :=
      (List.lookup device_id pd'.last_seen_planned_dispatch_sources).getD
        pd'.last_seen_planned_dispatch_source
    if fallback_source ≠ "" ∧ all_sources.any source_falsy then
      (pd', dispatches.map (fun d =>
        { d with meta :=
            { d.meta with source := some (d.meta.source.getD (some fallback_source)) } }))
    else (pd', dispatches)

/-- Embeds `OctopusIntelligentSystem._normalise_planned_dispatches`:
builds each entry (note: the `meta` dict is created with the `source` key
always present — `dispatch.get("type") or dispatch.get("meta", {}).get("source")`,
which may be `None`) and then runs the source workaround. -/
def normalise_planned_dispatches (pd : PersistentData) (device_id : String)
    (dispatches : List RawPlannedDispatch) :
    PersistentData × List NormalisedDispatch :=
  let normalised : List NormalisedDispatch :=
    dispatches.map (fun raw =>
      { chargeKwh := format_energy raw.energyAddedKwh,
        startDtUtc := format_dispatch_time raw.start,
        endDtUtc := format_dispatch_time raw.stop,
        meta :=
          { source := some (pyOr raw.type raw.metaSource),
            location := raw.metaLocation,
            deviceId := device_id } })
  update_planned_dispatch_sources pd device_id normalised

/-! ## `get_ready_time_summary` and its helpers

The Python string methods used here (`str.strip`, `str.split`,
`str.upper`, `str.join`) are embedded as character-list computations so
that every definition evaluates by kernel reduction. -/

/-- Python `str.strip()`. -/
def pyStrip (s : String) : String :=
  String.mk
    (((s.data.dropWhile Char.isWhitespace).reverse.dropWhile Char.isWhitespace).reverse)

/-- Embeds `sep.join(l)` (also `" - ".join(parts)`). -/
def joinSep (sep : String) : List String → String
  | [] => ""
  | [x] => x
  | x :: xs => x ++ sep ++ joinSep sep xs

/-- Split a character list at every separator character (Python
`str.split(sep)` keeps empty pieces). -/
def splitOnCharList (c : Char) : List Char → List (List Char)
  | [] => [[]]
  | x :: xs =>
    match splitOnCharList c xs with
    | [] => if x = c then [[], []] else [[x]]
    | h :: t => if x = c then [] :: h :: t else (x :: h) :: t

/-- Python `s.split(sep)` for a one-character separator. -/
def pySplitOn (c : Char) (s : String) : List String :=
  (splitOnCharList c s.data).map String.mk

/-- Group a character list into maximal runs of non-whitespace (Python
`str.split()` with no separator: runs of whitespace separate, no empty
pieces). -/
def splitWsList : List Char → List (List Char)
  | [] => []
  | x :: xs =>
    if x.isWhitespace then splitWsList xs
    else
      match splitWsList xs with
      | [] => [[x]]
      | h :: t =>
        match xs with
        | [] => [[x]]
        | y :: _ => if y.isWhitespace then [x] :: h :: t else (x :: h) :: t

/-- Python `s.split()` (whitespace runs, no empties). -/
def pySplitWs (s : String) : List String := (splitWsList s.data).map String.mk

/-- Python `s.upper()` (ASCII, as the device labels are). -/
def pyUpper (s : String) : String := String.mk (s.data.map Char.toUpper)

/-- Embeds `util.normalize_time_string`: trim, drop an exact `":00"` seconds
component, `None` for non-strings and blank strings. -/
def normalize_time_string (value : Option String) : Option String :=
  match value with
  | none => none
  | some v =>
    let trimmed := pyStrip v
    if trimmed = "" then none
    else
      match pySplitOn ':' trimmed with
      | [p0, p1, p2] => if p2 = "00" then some (p0 ++ ":" ++ p1) else some trimmed
      | _ => some trimmed

/-- Embeds `" ".join(trimmed.upper().split())` — the dedup key of
`format_equipment_name._add_part`. -/
def normalize_ws_upper (s : String) : String :=
  joinSep " " (pySplitWs (pyUpper s))

/-- Embeds `format_equipment_name._add_part`, over the state `(seen, parts)`. -/
def add_part (st : List String × List String) (raw : Option String) :
    List String × List String :=
  match raw with
  | none => st
  | some v =>
    let trimmed := pyStrip v
    if trimmed = "" then st
    else
      let normalized := normalize_ws_upper trimmed
      if st.1.contains normalized then st
      else (st.1 ++ [normalized], st.2 ++ [trimmed])

/-- Embeds `format_equipment_name._looks_like_identifier`. -/
def looks_like_identifier (raw : Option String) : Bool :=
  match raw with
  | none => false
  | some v0 =>
    let v := pyStrip v0
    if v = "" then false
    else
      let has_lower := v.data.any Char.isLower
      let has_identifier_chars := v.data.any (fun ch => ch.isDigit || ch == '_' || ch == '-')
      !has_lower && has_identifier_chars

/-- Embeds `isinstance(value, str) and value.strip()` as a truthiness test. -/
def strTruthyTrim (v : Option String) : Bool :=
  match v with
  | some s => !(pyStrip s == "")
  | none => false

/-- Embeds `util.format_equipment_name`. -/
def format_equipment_name (device : DeviceInfo) (fallback : Option String) : String :=
  let label_value := device.label
  let label_is_identifier := looks_like_identifier label_value
  if strTruthyTrim label_value && !label_is_identifier then
    pyStrip (label_value.getD "")
  else
    let st0 : List String × List String := ([], [])
    let st1 := if isTruthy label_value && !label_is_identifier then add_part st0 label_value
      else st0
    let make := pyOr device.make (pyOr device.vehicleMake device.chargePointMake)
    let model := pyOr device.model (pyOr device.vehicleModel device.chargePointModel)
    let nameParts := [make, model].filterMap (fun p =>
      match p with
      | some s => if pyStrip s == "" then none else some s
      | none => none)
    let nm := joinSep " " nameParts
    let st2 := add_part st1 (if nm = "" then none else some nm)
    let st3 := if !(looks_like_identifier device.provider) then add_part st2 device.provider
      else st2
    if !st3.2.isEmpty then joinSep " - " st3.2
    else if isTruthy label_value && strTruthyTrim label_value then
      pyStrip (label_value.getD "")
    else
      let fallback_value := pyOr fallback device.id
      if strTruthyTrim fallback_value then pyStrip (fallback_value.getD "")
      else "Octopus Intelligent Equipment"

/-- The `DeviceTargetSchedule` dataclass. -/
structure DeviceTargetSchedule where
  device_id : String
  label : String
  weekday_target_time : Option String
  weekend_target_time : Option String
  active_target_time : Option String
  weekday_target_soc : Option Int
  weekend_target_soc : Option Int
  minimum_soc : Option Int
  maximum_soc : Option Int
deriving DecidableEq, Repr

/-- Embeds `DeviceTargetSchedule.has_active_target` (`bool(active_target_time)`). -/
def DeviceTargetSchedule.has_active_target (d : DeviceTargetSchedule) : Bool :=
  isTruthy d.active_target_time

/-- The active target time as compared by the selection loop (always a
non-empty string for entries that pass `has_active_target`). -/
def atime (d : DeviceTargetSchedule) : String := d.active_target_time.getD ""

/-- The `TargetReadySummary` dataclass (fields read by the claims). -/
structure TargetReadySummary where
  mode : String
  active_target_key : String
  active_target_time : Option String
  target_device_id : Option String
  target_device_label : Option String
  device_targets : List DeviceTargetSchedule
deriving DecidableEq, Repr

/-- Embeds `preferences.get(target_key)` for the two keys the code uses. -/
def prefGet (p : Preferences) (key : String) : Option String :=
  if key = "weekendTargetTime" then p.weekendTargetTime
  else if key = "weekdayTargetTime" then p.weekdayTargetTime
  else none

/-- Embeds `OctopusIntelligentSystem.get_active_target_key`: weekend iff the
local weekday index is ≥ 5 (the epoch is a Monday, so the local day
number mod 7 is Python's `weekday()`). -/
def get_active_target_key (sys : System) (now : Int) : String :=
  if 5 ≤ ((now + sys.tz).ediv 1440).emod 7 then "weekendTargetTime"
  else "weekdayTargetTime"

/-- The `active_entry` selection loop of `get_ready_time_summary`:
strict `<` on the target-time strings, so the first seen of equal times
wins. -/
def select_go : Option DeviceTargetSchedule → List DeviceTargetSchedule →
    Option DeviceTargetSchedule
  | acc, [] => acc
  | acc, entry :: rest =>
    if entry.has_active_target then
      match acc with
      | none => select_go (some entry) rest
      | some a =>
        if pyStrLt (atime entry) (atime a) then select_go (some entry) rest
        else select_go (some a) rest
    else select_go acc rest

/-- The selection loop started with no candidate. -/
def select_active_entry (l : List DeviceTargetSchedule) : Option DeviceTargetSchedule :=
  select_go none l

/-- Embeds `OctopusIntelligentSystem.get_ready_time_summary`. -/
def get_ready_time_summary (sys : System) (now : Int) (device_id : Option String) :
    TargetReadySummary :=
  let target_key := get_active_target_key sys now
  let mode := if target_key = "weekendTargetTime" then "weekend" else "weekday"
  let device_ids :=
    if isTruthy device_id then [device_id.getD ""] else get_supported_device_ids sys
  let device_targets := device_ids.map (fun current_device_id =>
    let state := get_device_state sys (some current_device_id)
    let preferences := match state with | some st => st.preferences | none => {}
    let device := match state with | some st => st.device | none => {}
    let label := format_equipment_name device (some ("Equipment " ++ current_device_id))
    ({ device_id := current_device_id,
       label := label,
       weekday_target_time := normalize_time_string preferences.weekdayTargetTime,
       weekend_target_time := normalize_time_string preferences.weekendTargetTime,
       active_target_time := normalize_time_string (prefGet preferences target_key),
       weekday_target_soc := preferences.weekdayTargetSoc,
       weekend_target_soc := preferences.weekendTargetSoc,
       minimum_soc := preferences.minimumSoc,
       maximum_soc := preferences.maximumSoc } : DeviceTargetSchedule))
  let active_entry := select_active_entry device_targets
  { mode := mode,
    active_target_key := target_key,
    active_target_time := active_entry.bind DeviceTargetSchedule.active_target_time,
    target_device_id := active_entry.map DeviceTargetSchedule.device_id,
    target_device_label := active_entry.map DeviceTargetSchedule.label,
    device_targets := device_targets }

/-- The decimal digit characters used to render a zero-padded `HH:MM`
time string. -/
def digitChar : Nat → Char
  | 0 => '0'
  | 1 => '1'
  | 2 => '2'
  | 3 => '3'
  | 4 => '4'
  | 5 => '5'
  | 6 => '6'
  | 7 => '7'
  | 8 => '8'
  | _ => '9'

/-- A zero-padded `HH:MM` rendering (`f"{h:02}:{m:02}"` for `h ≤ 99`). -/
def hhmmString (h m : Nat) : String :=
  String.mk [digitChar (h / 10), digitChar (h % 10), ':',
    digitChar (m / 10), digitChar (m % 10)]

/-- The C6 witness system: two supported devices on a weekday, device
`"dev-a"` targeting 08:00 and device `"dev-b"` targeting 07:30. -/
def sysC6 : System :=
  { tz := 0, off_peak_start := 1410, off_peak_end := 330,
    primary_equipment_id := none,
    data := some
      { devices :=
          [("dev-a",
            { statusIsSuspended := false,
              device := { label := some "Car A" },
              preferences := { weekdayTargetTime := some "08:00",
                               weekdayTargetSoc := some 80 } }),
           ("dev-b",
            { statusIsSuspended := false,
              device := { label := some "Car B" },
              preferences := { weekdayTargetTime := some "07:30",
                               weekdayTargetSoc := some 90 } })],
        plannedDispatches := [],
        primary_equipment_id := some "dev-a" } }

/-! ## `OctopusEnergyGraphQLClient.__async_set_charge_preferences`

Python floats are modelled as exact rationals; Python's `round` is
round-half-to-even.  The GraphQL mutation itself is outside the model:
the embedding computes the validated `(target_time, targetSocPercent)`
payload, or the validation error raised before any network call. -/

/-- Python `round(q)`: round half to even. -/
def round_half_even (q : ℚ) : Int :=
  if q - ⌊q⌋ < 1/2 then ⌊q⌋
  else if 1/2 < q - ⌊q⌋ then ⌊q⌋ + 1
  else if ⌊q⌋ % 2 = 0 then ⌊q⌋ else ⌊q⌋ + 1

/-- Embeds `targetSocPercent = 5 * math.ceil(round(targetSocPercent) / 5)`
(`round` of an `int` is itself). -/
def set_charge_preferences_round_soc (targetSocPercent : Int) : Int :=
  5 * ⌈(targetSocPercent : ℚ) / 5⌉

/-- Embeds `readyByHoursAfterMidnight = 0.5 * round(readyByHoursAfterMidnight / 0.5)`. -/
def set_charge_preferences_round_ready (readyByHoursAfterMidnight : ℚ) : ℚ :=
  (1/2 : ℚ) * (round_half_even (readyByHoursAfterMidnight / (1/2 : ℚ)) : ℚ)

/-- Embeds `f"{n:02}"` for the non-negative hour/minute values produced here. -/
def pad2 (n : Int) : String := (if n < 10 then "0" else "") ++ toString n

/-- Embeds `f"{ready_hours:02}:{ready_mins:02}"` with
`ready_hours = int(ready)` (truncation = floor, as `ready ≥ 4` at this
point) and `ready_mins = round(60 * (ready % 1))`. -/
def charge_target_time_string (ready : ℚ) : String :=
  pad2 ⌊ready⌋ ++ ":" ++ pad2 (round_half_even (60 * (ready - ⌊ready⌋)))

/-- Embeds `__async_set_charge_preferences` up to (and excluding) the network
mutation: round both inputs, validate, and build the request payload. -/
def set_charge_preferences_checked (readyByHoursAfterMidnight : ℚ)
    (targetSocPercent : Int) : Except String (String × Int) :=
  if set_charge_preferences_round_ready readyByHoursAfterMidnight < 4 ∨
      11 < set_charge_preferences_round_ready readyByHoursAfterMidnight then
    Except.error "Target time must be between 4AM and 11AM"
  else if set_charge_preferences_round_soc targetSocPercent < 10 ∨
      100 < set_charge_preferences_round_soc targetSocPercent then
    Except.error "Target SOC percent must be between 10 and 100"
  else
    Except.ok
      (charge_target_time_string
        (set_charge_preferences_round_ready readyByHoursAfterMidnight),
       set_charge_preferences_round_soc targetSocPercent)

theorem charListLt_iff_lex : ∀ x y : List Char, charListLt x y = true ↔ x < y := by
  intro x
  induction x with
  | nil =>
    intro y
    cases y with
    | nil =>
      simp only [charListLt, Bool.false_eq_true, false_iff]
      intro h; cases h
    | cons b bs =>
      simp only [charListLt, true_iff]
      exact List.nil_lt_cons b bs
  | cons a as ih =>
    intro y
    cases y with
    | nil =>
      simp only [charListLt, Bool.false_eq_true, false_iff]
      intro h; cases h
    | cons b bs =>
      simp only [charListLt]
      by_cases hab : a < b
      · simp only [hab, if_pos, true_iff]
        exact List.Lex.rel hab
      · by_cases hba : b < a
        · simp only [hab, hba, if_neg, if_pos, not_false_eq_true, Bool.false_eq_true, false_iff]
          intro h
          cases h with
          | cons h => exact lt_irrefl a hba
          | rel h => exact hab h
        · have heq : a = b := le_antisymm (le_of_not_lt hba) (le_of_not_lt hab)
          subst heq
          simp only [lt_irrefl, if_neg, not_false_eq_true, ih bs]
          constructor
          · intro h; exact List.Lex.cons h
          · intro h
            cases h with
            | cons h => exact h
            | rel h => exact absurd h (lt_irrefl a)

theorem pyStrLt_iff (s t : String) : pyStrLt s t = true ↔ s < t := by
  rw [String.lt_iff_toList_lt]
  exact charListLt_iff_lex s.data t.data

theorem insert_by_start_perm (r : TimeRange) :
    ∀ l : List TimeRange, (insert_by_start r l).Perm (r :: l) := by
  intro l
  induction l with
  | nil => simp [insert_by_start]
  | cons x xs ih =>
    by_cases h : x.start < r.start
    · simp only [insert_by_start, h, if_pos]
      exact ((ih.cons x).trans (List.Perm.swap r x xs))
    · simp [insert_by_start, h]

theorem sort_by_start_perm : ∀ l : List TimeRange, (sort_by_start l).Perm l := by
  intro l
  induction l with
  | nil => simp [sort_by_start]
  | cons r rest ih =>
    exact ((insert_by_start_perm r (sort_by_start rest)).trans (ih.cons r))

theorem insert_by_start_pairwise (r : TimeRange) :
    ∀ l : List TimeRange, l.Pairwise (fun a b => a.start ≤ b.start) →
      (insert_by_start r l).Pairwise (fun a b => a.start ≤ b.start) := by
  intro l
  induction l with
  | nil => intro _; simp [insert_by_start]
  | cons x xs ih =>
    intro h
    rcases List.pairwise_cons.mp h with ⟨hx, hxs⟩
    by_cases hlt : x.start < r.start
    · simp only [insert_by_start, hlt, if_pos]
      refine List.pairwise_cons.mpr ⟨?_, ih hxs⟩
      intro b hb
      rcases List.mem_cons.mp ((insert_by_start_perm r xs).mem_iff.mp hb) with hb | hb
      · subst hb; exact le_of_lt hlt
      · exact hx b hb
    · simp only [insert_by_start, hlt, if_neg, not_false_eq_true]
      refine List.pairwise_cons.mpr ⟨?_, h⟩
      intro b hb
      rcases List.mem_cons.mp hb with hb | hb
      · subst hb; exact le_of_not_lt hlt
      · exact le_trans (le_of_not_lt hlt) (hx b hb)

theorem sort_by_start_sorted :
    ∀ l : List TimeRange, (sort_by_start l).Pairwise (fun a b => a.start ≤ b.start) := by
  intro l
  induction l with
  | nil => simp [sort_by_start]
  | cons r rest ih => exact insert_by_start_pairwise r _ ih

theorem sort_by_start_of_sorted :
    ∀ l : List TimeRange, l.Pairwise (fun a b => a.start ≤ b.start) → sort_by_start l = l := by
  intro l
  induction l with
  | nil => intro _; rfl
  | cons r rest ih =>
    intro h
    rcases List.pairwise_cons.mp h with ⟨hr, hrest⟩
    rw [sort_by_start, ih hrest]
    cases rest with
    | nil => rfl
    | cons x xs =>
      have : ¬ x.start < r.start := not_lt_of_le (hr x (List.mem_cons_self x xs))
      simp [insert_by_start, this]

/-- The merging loop turns a start-sorted list into a start-sorted list of
ranges separated by genuine gaps (`a.stop < b.start` for consecutive
ranges), whose head keeps the first start. -/
theorem merge_ranges_loop_spec :
    ∀ (rest : List TimeRange) (current : TimeRange),
      (current :: rest).Pairwise (fun a b => a.start ≤ b.start) →
      ∃ h t, merge_ranges_loop current rest = h :: t ∧ h.start = current.start ∧
        (h :: t).Pairwise (fun a b => a.start ≤ b.start) ∧
        (h :: t).Chain' (fun a b => a.stop < b.start) := by
  intro rest
  induction rest with
  | nil =>
    intro current _
    exact ⟨current, [], rfl, rfl, by simp, by simp⟩
  | cons next rest ih =>
    intro current hpw
    rcases List.pairwise_cons.mp hpw with ⟨hcur, hnextrest⟩
    by_cases hmerge : next.start ≤ current.stop
    · have hpw' : ({ current with stop := max current.stop next.stop } :: rest).Pairwise
          (fun a b => a.start ≤ b.start) := by
        refine List.pairwise_cons.mpr ⟨?_, (List.pairwise_cons.mp hnextrest).2⟩
        intro b hb
        exact hcur b (List.mem_cons_of_mem next hb)
      rcases ih _ hpw' with ⟨h, t, heq, hstart, hp, hc⟩
      refine ⟨h, t, ?_, ?_, hp, hc⟩
      · simp [merge_ranges_loop, hmerge, heq]
      · exact hstart
    · rcases ih next hnextrest with ⟨h, t, heq, hstart, hp, hc⟩
      refine ⟨current, h :: t, ?_, rfl, ?_, ?_⟩
      · simp [merge_ranges_loop, hmerge, heq]
      · refine List.pairwise_cons.mpr ⟨?_, hp⟩
        intro b hb
        have hnexth : current.start ≤ h.start := by
          rw [hstart]; exact hcur next (List.mem_cons_self next rest)
        rcases List.mem_cons.mp hb with hb | hb
        · subst hb; exact hnexth
        · exact le_trans hnexth ((List.pairwise_cons.mp hp).1 b hb)
      · refine List.chain'_cons.mpr ⟨?_, hc⟩
        rw [hstart]
        exact lt_of_not_le hmerge

/-- On a list whose consecutive ranges already have gaps, the merging
loop is the identity. -/
theorem merge_ranges_loop_of_gaps :
    ∀ (rest : List TimeRange) (current : TimeRange),
      (current :: rest).Chain' (fun a b => a.stop < b.start) →
      merge_ranges_loop current rest = current :: rest := by
  intro rest
  induction rest with
  | nil => intro current _; rfl
  | cons next rest ih =>
    intro current hch
    rcases List.chain'_cons.mp hch with ⟨hgap, hch'⟩
    have : ¬ next.start ≤ current.stop := not_le_of_lt hgap
    simp [merge_ranges_loop, this, ih next hch']

/-- Merging is idempotent (on the nose, not merely as sets). -/
theorem merge_and_sort_idempotent (l : List TimeRange) :
    merge_and_sort_time_ranges (merge_and_sort_time_ranges l) = merge_and_sort_time_ranges l := by
  cases hs : sort_by_start l with
  | nil =>
    have h1 : merge_and_sort_time_ranges l = [] := by
      unfold merge_and_sort_time_ranges; rw [hs]
    rw [h1]; rfl
  | cons r rest =>
    have h1 : merge_and_sort_time_ranges l = merge_ranges_loop r rest := by
      unfold merge_and_sort_time_ranges; rw [hs]
    have hpw : (r :: rest).Pairwise (fun a b => a.start ≤ b.start) := by
      rw [← hs]; exact sort_by_start_sorted l
    rcases merge_ranges_loop_spec rest r hpw with ⟨h, t, heq, _, hp, hc⟩
    calc merge_and_sort_time_ranges (merge_and_sort_time_ranges l)
        = merge_and_sort_time_ranges (h :: t) := by rw [h1, heq]
      _ = merge_ranges_loop h t := by
          unfold merge_and_sort_time_ranges
          rw [sort_by_start_of_sorted _ hp]
      _ = h :: t := merge_ranges_loop_of_gaps t h hc
      _ = merge_and_sort_time_ranges l := by rw [h1, heq]

/-- Two mutually overlapping-or-touching ranges merge into the single
spanning range. -/
theorem merge_and_sort_pair (a b : TimeRange)
    (hab : b.start ≤ a.stop) (hba : a.start ≤ b.stop) :
    merge_and_sort_time_ranges [a, b] =
      [⟨min a.start b.start, max a.stop b.stop⟩] := by
  unfold merge_and_sort_time_ranges
  by_cases h : b.start < a.start
  · have hsort : sort_by_start [a, b] = [b, a] := by
      simp [sort_by_start, insert_by_start, h]
    rw [hsort]
    have : a.start ≤ b.stop := hba
    simp only [merge_ranges_loop, this, if_pos]
    have hmin : min a.start b.start = b.start := min_eq_right (le_of_lt h)
    have hmax : max b.stop a.stop = max a.stop b.stop := max_comm _ _
    rw [hmin.symm] at *
    simp [merge_ranges_loop, hmax, hmin]
  · have hsort : sort_by_start [a, b] = [a, b] := by
      simp [sort_by_start, insert_by_start, h]
    rw [hsort]
    simp only [merge_ranges_loop, hab, if_pos]
    have hmin : min a.start b.start = a.start := min_eq_left (le_of_not_lt h)
    simp [merge_ranges_loop, hmin]

/-- Well-formed pairwise-disjoint ranges come back unmerged: the result is
exactly the stable start-sort of the input (hence a permutation of the
input, sorted by start). -/
theorem merge_and_sort_disjoint (l : List TimeRange)
    (hwf : ∀ r ∈ l, r.start ≤ r.stop)
    (hdisj : l.Pairwise (fun a b => a.stop < b.start ∨ b.stop < a.start)) :
    (merge_and_sort_time_ranges l).Perm l ∧
    (merge_and_sort_time_ranges l).Pairwise (fun a b => a.start ≤ b.start) ∧
    merge_and_sort_time_ranges l = sort_by_start l := by
  have hperm := sort_by_start_perm l
  have hsorted := sort_by_start_sorted l
  have hdisj' : (sort_by_start l).Pairwise (fun a b => a.stop < b.start ∨ b.stop < a.start) :=
    (hperm.pairwise_iff (fun h => h.symm.imp (fun h => h) (fun h => h))).mpr hdisj
  have hgap : (sort_by_start l).Pairwise (fun a b => a.stop < b.start) := by
    have hcomb := hsorted.and hdisj'
    refine hcomb.imp_of_mem ?_
    intro a b ha hb hab
    rcases hab with ⟨hle, hd | hd⟩
    · exact hd
    · have hbwf : b.start ≤ b.stop := hwf b (hperm.subset hb)
      exact absurd (lt_of_lt_of_le (lt_of_le_of_lt hbwf hd) hle) (lt_irrefl _)
  have hres : merge_and_sort_time_ranges l = sort_by_start l := by
    unfold merge_and_sort_time_ranges
    cases hs : sort_by_start l with
    | nil => rfl
    | cons r rest =>
      have : (r :: rest).Chain' (fun a b => a.stop < b.start) := by
        rw [← hs]; exact hgap.chain'
      exact merge_ranges_loop_of_gaps rest r this
  exact ⟨hres ▸ hperm, hres ▸ hsorted, hres⟩

/-- C2 (counterexample): two ranges with `a.end >= b.start` that do **not**
overlap — the merged output keeps them separate, not as one spanning
range, refuting the claim as stated. -/
theorem merge_and_sort_c2_counterexample :
    ((⟨0, 1⟩ : TimeRange).start ≤ (⟨10, 20⟩ : TimeRange).stop) ∧
    merge_and_sort_time_ranges [⟨10, 20⟩, ⟨0, 1⟩] = [⟨0, 1⟩, ⟨10, 20⟩] ∧
    merge_and_sort_time_ranges [⟨10, 20⟩, ⟨0, 1⟩] ≠ [⟨0, 20⟩] := by
  decide

/-- C2 (amended): `merge_and_sort_time_ranges` is idempotent; two ranges
that mutually overlap or touch (`a.end ≥ b.start` **and** `b.end ≥
a.start`) merge into exactly one range spanning `[min(starts),
max(ends)]`; well-formed pairwise-disjoint ranges are returned unmerged,
sorted by start. -/
theorem merge_and_sort_time_ranges_spec :
    (∀ l : List TimeRange,
      merge_and_sort_time_ranges (merge_and_sort_time_ranges l) = merge_and_sort_time_ranges l) ∧
    (∀ a b : TimeRange, b.start ≤ a.stop → a.start ≤ b.stop →
      merge_and_sort_time_ranges [a, b] = [⟨min a.start b.start, max a.stop b.stop⟩]) ∧
    (∀ l : List TimeRange, (∀ r ∈ l, r.start ≤ r.stop) →
      l.Pairwise (fun a b => a.stop < b.start ∨ b.stop < a.start) →
      (merge_and_sort_time_ranges l).Perm l ∧
      (merge_and_sort_time_ranges l).Pairwise (fun a b => a.start ≤ b.start) ∧
      merge_and_sort_time_ranges l = sort_by_start l) :=
  ⟨merge_and_sort_idempotent, merge_and_sort_pair, merge_and_sort_disjoint⟩

/-- C2 (witness): the amended pair statement at a concrete overlapping
pair, and the disjoint statement at a concrete disjoint pair. -/
theorem merge_and_sort_time_ranges_spec_witness :
    merge_and_sort_time_ranges [⟨0, 5⟩, ⟨3, 10⟩] = [⟨0, 10⟩] ∧
    merge_and_sort_time_ranges [⟨7, 9⟩, ⟨0, 2⟩] = [⟨0, 2⟩, ⟨7, 9⟩] := by
  constructor
  · have h := merge_and_sort_time_ranges_spec.2.1 ⟨0, 5⟩ ⟨3, 10⟩ (by decide) (by decide)
    simpa using h
  · have h := (merge_and_sort_time_ranges_spec.2.2 [⟨7, 9⟩, ⟨0, 2⟩]
      (by decide) (by decide)).2.2
    simpa using h

/-- C3 (counterexample): a wrapping window (23:55 → 01:40) for which local
minute-of-day 23:31 is **not** off-peak, refuting the claim's universally
quantified statement about wrapping windows. -/
theorem is_off_peak_time_now_c3_counterexample :
    let sysW : System :=
      { tz := 0, off_peak_start := 1435, off_peak_end := 100,
        primary_equipment_id := none, data := none }
    sysW.off_peak_end < sysW.off_peak_start ∧
    (1411 + sysW.tz).emod 1440 = 23 * 60 + 31 ∧
    is_off_peak_time_now sysW 1411 0 = false := by
  decide

/-- C3 (amended): for a non-wrapping window (`start < end`) the clock test
holds iff the local minute-of-day of `now + offset` lies in
`[start, end]`, hence is false one minute outside either boundary; for a
wrapping window (`start > end`) it holds iff the minute-of-day is `≥
start` or `≤ end` — in particular, for the window 23:30→05:30 the minutes
23:31 and 04:00 are off-peak and 12:00 is not; and the test never reads
the dispatch data. -/
theorem is_off_peak_time_now_spec (sys : System) (now minutes_offset : Int) :
    (sys.off_peak_start < sys.off_peak_end →
      (is_off_peak_time_now sys now minutes_offset = true ↔
        (sys.off_peak_start ≤ (now + minutes_offset + sys.tz).emod 1440 ∧
         (now + minutes_offset + sys.tz).emod 1440 ≤ sys.off_peak_end))) ∧
    (sys.off_peak_start < sys.off_peak_end →
      (now + minutes_offset + sys.tz).emod 1440 = sys.off_peak_start - 1 →
      is_off_peak_time_now sys now minutes_offset = false) ∧
    (sys.off_peak_start < sys.off_peak_end →
      (now + minutes_offset + sys.tz).emod 1440 = sys.off_peak_end + 1 →
      is_off_peak_time_now sys now minutes_offset = false) ∧
    (sys.off_peak_end < sys.off_peak_start →
      (is_off_peak_time_now sys now minutes_offset = true ↔
        (sys.off_peak_start ≤ (now + minutes_offset + sys.tz).emod 1440 ∨
         (now + minutes_offset + sys.tz).emod 1440 ≤ sys.off_peak_end))) ∧
    (∀ d : Option SystemData,
      is_off_peak_time_now
        { tz := sys.tz, off_peak_start := sys.off_peak_start,
          off_peak_end := sys.off_peak_end,
          primary_equipment_id := sys.primary_equipment_id, data := d }
        now minutes_offset = is_off_peak_time_now sys now minutes_offset) ∧
    (let sysN : System :=
      { tz := 0, off_peak_start := 23 * 60 + 30, off_peak_end := 5 * 60 + 30,
        primary_equipment_id := none, data := none }
     is_off_peak_time_now sysN (23 * 60 + 31) 0 = true ∧
     is_off_peak_time_now sysN (4 * 60) 0 = true ∧
     is_off_peak_time_now sysN (12 * 60) 0 = false) := by
  have hiff1 : sys.off_peak_start < sys.off_peak_end →
      (is_off_peak_time_now sys now minutes_offset = true ↔
        (sys.off_peak_start ≤ (now + minutes_offset + sys.tz).emod 1440 ∧
         (now + minutes_offset + sys.tz).emod 1440 ≤ sys.off_peak_end)) := by
    intro hlt
    have hbr : ¬ sys.off_peak_end < sys.off_peak_start := not_lt_of_lt hlt
    simp only [is_off_peak_time_now, hbr, if_neg, not_false_eq_true,
      Bool.and_eq_true, decide_eq_true_eq]
  refine ⟨hiff1, ?_, ?_, ?_, ?_, by decide⟩
  · intro hlt hmd
    cases h : is_off_peak_time_now sys now minutes_offset with
    | false => rfl
    | true =>
      have hb := (hiff1 hlt).mp h
      rw [hmd] at hb
      omega
  · intro hlt hmd
    cases h : is_off_peak_time_now sys now minutes_offset with
    | false => rfl
    | true =>
      have hb := (hiff1 hlt).mp h
      rw [hmd] at hb
      omega
  · intro hlt
    simp only [is_off_peak_time_now, hlt, if_pos, Bool.or_eq_true, decide_eq_true_eq]
  · intro d
    rfl

/-- C3 (witness): a concrete non-wrapping window 10:00–12:00 at local
minute-of-day 10:50. -/
theorem is_off_peak_time_now_spec_witness :
    is_off_peak_time_now
      { tz := 0, off_peak_start := 600, off_peak_end := 720,
        primary_equipment_id := none, data := none } 650 0 = true :=
  ((is_off_peak_time_now_spec
      { tz := 0, off_peak_start := 600, off_peak_end := 720,
        primary_equipment_id := none, data := none } 650 0).1 (by decide)).mpr
    (by decide)

/-- C1: every fixed-window instance is well-formed (`start ≤ end`, the
wrap re-pairing); a returned range contains `now + offset` or starts at or
after it, and is the first such range of the merged candidates; the
result is `none` exactly when every merged range fails that test (no
exception path); and in the 23:30–05:30 scenario at 2025-06-01 23:45
local with no dispatches, the returned range runs from the most recent
23:30 local boundary (22:30 UTC, instant 1350) to the following 05:30
local (04:30 UTC, instant 1710). -/
theorem next_offpeak_range_utc_spec (sys : System) (now minutes_offset : Int)
    (device_id : Option String)
    (h1 : 0 ≤ sys.off_peak_start) (h2 : sys.off_peak_start < 1440)
    (h3 : 0 ≤ sys.off_peak_end) (h4 : sys.off_peak_end < 1440) :
    (∀ r ∈ base_offpeak_ranges sys (now + minutes_offset), r.start ≤ r.stop) ∧
    (∀ r, next_offpeak_range_utc sys now minutes_offset device_id = some r →
      offpeak_pred (now + minutes_offset) r = true) ∧
    (offpeak_candidate_ranges sys (now + minutes_offset) device_id ≠ [] →
      next_offpeak_range_utc sys now minutes_offset device_id =
        (merge_and_sort_time_ranges
          (offpeak_candidate_ranges sys (now + minutes_offset) device_id)).find?
          (offpeak_pred (now + minutes_offset))) ∧
    (next_offpeak_range_utc sys now minutes_offset device_id = none ↔
      ∀ r ∈ merge_and_sort_time_ranges
          (offpeak_candidate_ranges sys (now + minutes_offset) device_id),
        offpeak_pred (now + minutes_offset) r = false) ∧
    next_offpeak_range_utc sysC1 1365 0 none = some ⟨1350, 1710⟩ := by
  refine ⟨?_, ?_, ?_, ?_, by decide⟩
  · intro r hr
    unfold base_offpeak_ranges at hr
    by_cases hwrap :
        now + minutes_offset - (now + minutes_offset + sys.tz).emod 1440 - 1440 + sys.off_peak_end <
        now + minutes_offset - (now + minutes_offset + sys.tz).emod 1440 - 1440 + sys.off_peak_start
    · simp only [hwrap, if_pos] at hr
      simp only [List.mem_cons, List.mem_singleton, List.not_mem_nil, or_false] at hr
      rcases hr with hr | hr | hr <;> subst hr <;> simp only [] <;> omega
    · simp only [hwrap, if_neg, not_false_eq_true] at hr
      simp only [List.mem_cons, List.mem_singleton, List.not_mem_nil, or_false] at hr
      rcases hr with hr | hr | hr <;> subst hr <;> simp only [] <;> omega
  · intro r hr
    unfold next_offpeak_range_utc at hr
    by_cases hemp : (offpeak_candidate_ranges sys (now + minutes_offset) device_id).isEmpty
    · simp only [hemp, if_pos] at hr
      exact absurd hr (by simp)
    · simp only [hemp, if_neg, not_false_eq_true] at hr
      exact List.find?_some hr
  · intro hne
    have hemp : (offpeak_candidate_ranges sys (now + minutes_offset) device_id).isEmpty = false := by
      cases hc : offpeak_candidate_ranges sys (now + minutes_offset) device_id with
      | nil => exact absurd hc hne
      | cons a t => simp [List.isEmpty]
    unfold next_offpeak_range_utc
    simp only [hemp, Bool.false_eq_true, if_neg, not_false_eq_true]
  · constructor
    · intro hnone
      unfold next_offpeak_range_utc at hnone
      by_cases hemp : (offpeak_candidate_ranges sys (now + minutes_offset) device_id).isEmpty
      · have : offpeak_candidate_ranges sys (now + minutes_offset) device_id = [] :=
          List.isEmpty_iff.mp hemp
        rw [this]
        intro r hr
        exact absurd hr (by simp [merge_and_sort_time_ranges, sort_by_start])
      · simp only [hemp, if_neg, not_false_eq_true] at hnone
        intro r hr
        have := List.find?_eq_none.mp hnone r hr
        simpa using this
    · intro hall
      unfold next_offpeak_range_utc
      by_cases hemp : (offpeak_candidate_ranges sys (now + minutes_offset) device_id).isEmpty
      · simp [hemp]
      · simp only [hemp, if_neg, not_false_eq_true]
        refine List.find?_eq_none.mpr ?_
        intro x hx
        simp [hall x hx]

/-- C1 (witness): the scenario instance, obtained from the theorem at the
scenario system. -/
theorem next_offpeak_range_utc_spec_witness :
    next_offpeak_range_utc sysC1 1365 0 none = some ⟨1350, 1710⟩ :=
  (next_offpeak_range_utc_spec sysC1 1365 0 none (by decide) (by decide)
    (by decide) (by decide)).2.2.2.2

/-- Removing from `filter`ed-out elements is invisible to `filterMap` when
the map sends them to `none`. -/
theorem filterMap_filter_of_none {α β : Type} (p : α → Bool) (f : α → Option β)
    (h : ∀ a, p a = false → f a = none) :
    ∀ l : List α, List.filterMap f (l.filter p) = List.filterMap f l := by
  intro l
  induction l with
  | nil => rfl
  | cons a as ih =>
    cases hp : p a with
    | true => simp [List.filter_cons, hp, List.filterMap_cons, ih]
    | false => simp [List.filter_cons, hp, List.filterMap_cons, h a hp, ih]

theorem plannedOf_dropSuspended (sys : System) :
    plannedOf (dropSuspendedDispatches sys) =
      (plannedOf sys).filter (fun st =>
        !(isTruthy st.deviceId && !(is_smart_charging_enabled sys st.deviceId))) := by
  cases hd : sys.data <;> simp [plannedOf, dropSuspendedDispatches, hd]

theorem enabled_dropSuspended (sys : System) (d : Option String) :
    is_smart_charging_enabled (dropSuspendedDispatches sys) d =
      is_smart_charging_enabled sys d := by
  cases hd : sys.data <;>
    simp [is_smart_charging_enabled, get_device_state, get_primary_equipment_id,
      devicesOf, dropSuspendedDispatches, hd]

theorem combined_dispatches_dropSuspended (sys : System) :
    combined_dispatches (dropSuspendedDispatches sys) = combined_dispatches sys := by
  unfold combined_dispatches
  rw [plannedOf_dropSuspended]
  simp only [enabled_dropSuspended]
  apply filterMap_filter_of_none
  intro st hst
  have hcond : (isTruthy st.deviceId && !(is_smart_charging_enabled sys st.deviceId)) = true := by
    revert hst
    cases isTruthy st.deviceId && !(is_smart_charging_enabled sys st.deviceId) <;> simp
  cases hsrc : st.source == some "smart-charge" with
  | false => simp [hsrc]
  | true =>
    simp only [hsrc, if_pos]
    cases st.startDtUtc <;> cases st.endDtUtc <;> simp [hcond]

theorem base_offpeak_ranges_dropSuspended (sys : System) (u : Int) :
    base_offpeak_ranges (dropSuspendedDispatches sys) u = base_offpeak_ranges sys u := rfl

theorem plannedOf_setDevices (sys : System) (ds : List (String × DeviceState)) :
    plannedOf (setDevices sys ds) = plannedOf sys := by
  cases hd : sys.data <;> simp [plannedOf, setDevices, hd]

/-- C4: suspension filters only the combined view.  (i) With no device id
requested, removing every suspended device's dispatches does not change
`next_offpeak_range_utc`: those dispatches are already excluded.
(ii) With a device id requested, the result is entirely independent of
the device-status map (in particular of any `isSuspended` flag).
(iii) A device-scoped query still uses the requested device's own
smart-charge dispatches: each of them is a candidate range. -/
theorem next_offpeak_suspension_filtering (sys : System)
    (ds : List (String × DeviceState)) (now minutes_offset : Int)
    (device_id : Option String) :
    (isTruthy device_id = false →
      next_offpeak_range_utc (dropSuspendedDispatches sys) now minutes_offset device_id =
        next_offpeak_range_utc sys now minutes_offset device_id) ∧
    (isTruthy device_id = true →
      next_offpeak_range_utc (setDevices sys ds) now minutes_offset device_id =
        next_offpeak_range_utc sys now minutes_offset device_id) ∧
    (isTruthy device_id = true →
      ∀ st ∈ plannedOf sys, st.source = some "smart-charge" →
        st.deviceId = device_id → ∀ s e, st.startDtUtc = some s → st.endDtUtc = some e →
        (⟨s, e⟩ : TimeRange) ∈
          offpeak_candidate_ranges sys (now + minutes_offset) device_id) := by
  refine ⟨?_, ?_, ?_⟩
  · intro hdev
    unfold next_offpeak_range_utc offpeak_candidate_ranges
    rw [hdev]
    simp only [Bool.false_eq_true, if_neg, not_false_eq_true,
      combined_dispatches_dropSuspended, base_offpeak_ranges_dropSuspended]
  · intro hdev
    unfold next_offpeak_range_utc offpeak_candidate_ranges targeted_dispatches
    rw [hdev, plannedOf_setDevices]
    rfl
  · intro hdev st hmem hsrc hdid s e hs he
    have hment : (⟨s, e⟩ : TimeRange) ∈ targeted_dispatches sys device_id := by
      unfold targeted_dispatches
      refine List.mem_filterMap.mpr ⟨st, hmem, ?_⟩
      simp [hsrc, hs, he, hdid]
    have hcand : offpeak_candidate_ranges sys (now + minutes_offset) device_id =
        targeted_dispatches sys device_id := by
      unfold offpeak_candidate_ranges
      rw [hdev]
      cases ht : targeted_dispatches sys device_id with
      | nil => exact absurd (ht ▸ hment) (List.not_mem_nil _)
      | cons a t => simp
    rw [hcand]
    exact hment

/-- C4 (witness): flipping the whole device map (including the suspension
flag) does not change the device-scoped query on `sysC4`, and dropping the
suspended device's dispatches does not change the combined query. -/
theorem next_offpeak_suspension_filtering_witness :
    (next_offpeak_range_utc (setDevices sysC4 [("ev", { statusIsSuspended := false })])
        0 0 (some "ev") =
      next_offpeak_range_utc sysC4 0 0 (some "ev")) ∧
    (next_offpeak_range_utc (dropSuspendedDispatches sysC4) 0 0 none =
      next_offpeak_range_utc sysC4 0 0 none) :=
  ⟨(next_offpeak_suspension_filtering sysC4 [("ev", { statusIsSuspended := false })]
      0 0 (some "ev")).2.1 (by decide),
   (next_offpeak_suspension_filtering sysC4 [("ev", { statusIsSuspended := false })]
      0 0 none).1 (by decide)⟩

theorem plannedOf_dropMalformed (sys : System) :
    plannedOf (dropMalformedDispatches sys) =
      (plannedOf sys).filter dispatch_parseable := by
  cases hd : sys.data <;> simp [plannedOf, dropMalformedDispatches, hd]

theorem enabled_dropMalformed (sys : System) (d : Option String) :
    is_smart_charging_enabled (dropMalformedDispatches sys) d =
      is_smart_charging_enabled sys d := by
  cases hd : sys.data <;>
    simp [is_smart_charging_enabled, get_device_state, get_primary_equipment_id,
      devicesOf, dropMalformedDispatches, hd]

theorem charging_dispatch_test_of_malformed (source : Option String) (u : Int)
    (st : Dispatch) (h : dispatch_parseable st = false) :
    charging_dispatch_test source u st = false := by
  unfold dispatch_parseable at h
  unfold charging_dispatch_test
  cases hs : st.startDtUtc with
  | none => cases hc : (source.isNone || st.source == source) <;> simp [hc, hs]
  | some s =>
    cases he : st.endDtUtc with
    | none => cases hc : (source.isNone || st.source == source) <;> simp [hc, hs, he]
    | some e => rw [hs, he] at h; simp at h

theorem any_filter_of_false {α : Type} (p f : α → Bool)
    (h : ∀ a, p a = false → f a = false) :
    ∀ l : List α, (l.filter p).any f = l.any f := by
  intro l
  induction l with
  | nil => rfl
  | cons a as ih =>
    cases hp : p a with
    | true => simp [List.filter_cons, hp, ih]
    | false => simp [List.filter_cons, hp, h a hp, ih]

theorem is_charging_now_dropMalformed (sys : System) (source : Option String)
    (now minutes_offset : Int) (device_id : Option String) :
    is_charging_now (dropMalformedDispatches sys) source now minutes_offset device_id =
      is_charging_now sys source now minutes_offset device_id := by
  unfold is_charging_now
  rw [plannedOf_dropMalformed]
  cases hdev : isTruthy device_id with
  | false =>
    simp only [hdev, Bool.false_eq_true, if_neg, not_false_eq_true]
    exact any_filter_of_false _ _
      (fun a ha => charging_dispatch_test_of_malformed source _ a ha) _
  | true =>
    simp only [hdev, if_pos]
    rw [List.filter_filter, List.filter_congr (fun a _ => Bool.and_comm _ _),
      ← List.filter_filter]
    exact any_filter_of_false _ _
      (fun a ha => charging_dispatch_test_of_malformed source _ a ha) _

theorem targeted_dispatches_dropMalformed (sys : System) (device_id : Option String) :
    targeted_dispatches (dropMalformedDispatches sys) device_id =
      targeted_dispatches sys device_id := by
  unfold targeted_dispatches
  rw [plannedOf_dropMalformed]
  apply filterMap_filter_of_none
  intro st h
  unfold dispatch_parseable at h
  cases hs : st.startDtUtc with
  | none => cases hc : (st.source == some "smart-charge") <;> simp [hc, hs]
  | some s =>
    cases he : st.endDtUtc with
    | none => cases hc : (st.source == some "smart-charge") <;> simp [hc, hs, he]
    | some e => rw [hs, he] at h; simp at h

theorem combined_dispatches_dropMalformed (sys : System) :
    combined_dispatches (dropMalformedDispatches sys) = combined_dispatches sys := by
  unfold combined_dispatches
  rw [plannedOf_dropMalformed]
  simp only [enabled_dropMalformed]
  apply filterMap_filter_of_none
  intro st h
  unfold dispatch_parseable at h
  cases hs : st.startDtUtc with
  | none => cases hc : (st.source == some "smart-charge") <;> simp [hc, hs]
  | some s =>
    cases he : st.endDtUtc with
    | none => cases hc : (st.source == some "smart-charge") <;> simp [hc, hs, he]
    | some e => rw [hs, he] at h; simp at h

theorem offpeak_candidate_ranges_dropMalformed (sys : System) (u : Int)
    (device_id : Option String) :
    offpeak_candidate_ranges (dropMalformedDispatches sys) u device_id =
      offpeak_candidate_ranges sys u device_id := by
  unfold offpeak_candidate_ranges
  rw [targeted_dispatches_dropMalformed, combined_dispatches_dropMalformed]
  rfl

theorem next_offpeak_range_utc_dropMalformed (sys : System) (now minutes_offset : Int)
    (device_id : Option String) :
    next_offpeak_range_utc (dropMalformedDispatches sys) now minutes_offset device_id =
      next_offpeak_range_utc sys now minutes_offset device_id := by
  simp only [next_offpeak_range_utc, offpeak_candidate_ranges_dropMalformed]

theorem next_offpeak_start_utc_dropMalformed (sys : System) (now minutes_offset : Int)
    (device_id : Option String) :
    next_offpeak_start_utc (dropMalformedDispatches sys) now minutes_offset device_id =
      next_offpeak_start_utc sys now minutes_offset device_id := by
  unfold next_offpeak_start_utc
  rw [next_offpeak_range_utc_dropMalformed]

theorem charge_start_loop_nil (sys : System) (now : Int) (device_id : Option String)
    (acc : Option Int) :
    charge_start_loop sys now device_id [] acc =
      match acc with
      | some s => some s
      | none => next_offpeak_start_utc sys now 0 device_id := rfl

theorem charge_start_loop_cons (sys : System) (now : Int) (device_id : Option String)
    (a : Dispatch) (as : List Dispatch) (acc : Option Int) :
    charge_start_loop sys now device_id (a :: as) acc =
      if a.source == some "smart-charge" then
        if isTruthy device_id && !(a.deviceId == device_id) then
          charge_start_loop sys now device_id as acc
        else
          match a.startDtUtc, a.endDtUtc with
          | some s, some e =>
            if s ≤ now ∧ now ≤ e then some s
            else if now < s then
              charge_start_loop sys now device_id as (next_start_update acc s)
            else charge_start_loop sys now device_id as acc
          | _, _ => charge_start_loop sys now device_id as acc
      else charge_start_loop sys now device_id as acc := rfl

/-- A dispatch row that the `current_intelligent_charge_start_utc` loop
skips: wrong source, filtered-out device, or unparseable timestamp. -/
theorem charge_start_loop_cons_skip (sys : System) (now : Int) (device_id : Option String)
    (a : Dispatch) (as : List Dispatch) (acc : Option Int)
    (h : (a.source == some "smart-charge") = false ∨
         (isTruthy device_id && !(a.deviceId == device_id)) = true ∨
         a.startDtUtc = none ∨ a.endDtUtc = none) :
    charge_start_loop sys now device_id (a :: as) acc =
      charge_start_loop sys now device_id as acc := by
  rw [charge_start_loop_cons]
  cases hsrc : (a.source == some "smart-charge") with
  | false => simp only [hsrc, Bool.false_eq_true, if_neg, not_false_eq_true]
  | true =>
    simp only [hsrc, if_pos]
    cases hfilt : (isTruthy device_id && !(a.deviceId == device_id)) with
    | true => simp only [hfilt, if_pos]
    | false =>
      simp only [hfilt, Bool.false_eq_true, if_neg, not_false_eq_true]
      rcases h with h | h | h | h
      · exact absurd hsrc (by simp [h])
      · exact absurd hfilt (by simp [h])
      · rw [h]
      · rw [h]
        cases a.startDtUtc <;> rfl

/-- A dispatch row that the loop examines in full: smart-charge source,
device filter passed, both timestamps parsed. -/
theorem charge_start_loop_cons_eligible (sys : System) (now : Int)
    (device_id : Option String) (a : Dispatch) (as : List Dispatch) (acc : Option Int)
    (s e : Int) (hs : a.startDtUtc = some s) (he : a.endDtUtc = some e)
    (hsrc : (a.source == some "smart-charge") = true)
    (hfilt : (isTruthy device_id && !(a.deviceId == device_id)) = false) :
    charge_start_loop sys now device_id (a :: as) acc =
      if s ≤ now ∧ now ≤ e then some s
      else if now < s then
        charge_start_loop sys now device_id as (next_start_update acc s)
      else charge_start_loop sys now device_id as acc := by
  rw [charge_start_loop_cons]
  simp only [hsrc, if_pos]
  simp only [hfilt, Bool.false_eq_true, if_neg, not_false_eq_true]
  rw [hs, he]

theorem charge_start_loop_dropMalformed (sys : System) (now : Int)
    (device_id : Option String) :
    ∀ (l : List Dispatch) (acc : Option Int),
      charge_start_loop (dropMalformedDispatches sys) now device_id
          (l.filter dispatch_parseable) acc =
        charge_start_loop sys now device_id l acc := by
  intro l
  induction l with
  | nil =>
    intro acc
    cases acc with
    | some s => rfl
    | none =>
      show next_offpeak_start_utc (dropMalformedDispatches sys) now 0 device_id =
        next_offpeak_start_utc sys now 0 device_id
      exact next_offpeak_start_utc_dropMalformed sys now 0 device_id
  | cons a as ih =>
    intro acc
    cases hp : dispatch_parseable a with
    | true =>
      rw [List.filter_cons_of_pos hp]
      cases hsrc : (a.source == some "smart-charge") with
      | false =>
        rw [charge_start_loop_cons_skip _ _ _ _ _ _ (Or.inl hsrc),
          charge_start_loop_cons_skip _ _ _ _ _ _ (Or.inl hsrc)]
        exact ih acc
      | true =>
        cases hfilt : (isTruthy device_id && !(a.deviceId == device_id)) with
        | true =>
          rw [charge_start_loop_cons_skip _ _ _ _ _ _ (Or.inr (Or.inl hfilt)),
            charge_start_loop_cons_skip _ _ _ _ _ _ (Or.inr (Or.inl hfilt))]
          exact ih acc
        | false =>
          unfold dispatch_parseable at hp
          cases hst : a.startDtUtc with
          | none => rw [hst] at hp; simp at hp
          | some s =>
            cases hen : a.endDtUtc with
            | none => rw [hst, hen] at hp; simp at hp
            | some e =>
              rw [charge_start_loop_cons_eligible _ _ _ _ _ _ s e hst hen hsrc hfilt,
                charge_start_loop_cons_eligible _ _ _ _ _ _ s e hst hen hsrc hfilt]
              by_cases hbr : s ≤ now ∧ now ≤ e
              · rw [if_pos hbr, if_pos hbr]
              · rw [if_neg hbr, if_neg hbr]
                by_cases hfut : now < s
                · rw [if_pos hfut, if_pos hfut]; exact ih _
                · rw [if_neg hfut, if_neg hfut]; exact ih acc
    | false =>
      rw [List.filter_cons_of_neg (by simp [hp])]
      unfold dispatch_parseable at hp
      have hskip : a.startDtUtc = none ∨ a.endDtUtc = none := by
        cases hst : a.startDtUtc with
        | none => exact Or.inl rfl
        | some s =>
          cases hen : a.endDtUtc with
          | none => exact Or.inr rfl
          | some e => rw [hst, hen] at hp; simp at hp
      rw [charge_start_loop_cons_skip _ _ _ _ _ _ (Or.inr (Or.inr hskip))]
      exact ih acc

theorem current_charge_start_dropMalformed (sys : System) (now : Int)
    (device_id : Option String) :
    current_intelligent_charge_start_utc (dropMalformedDispatches sys) now device_id =
      current_intelligent_charge_start_utc sys now device_id := by
  unfold current_intelligent_charge_start_utc
  rw [plannedOf_dropMalformed]
  exact charge_start_loop_dropMalformed sys now device_id (plannedOf sys) none

theorem is_off_peak_now_dropMalformed (sys : System) (now minutes_offset : Int) :
    is_off_peak_now (dropMalformedDispatches sys) now minutes_offset =
      is_off_peak_now sys now minutes_offset := by
  unfold is_off_peak_now
  rw [is_charging_now_dropMalformed]
  rfl

/-- C9: rows with an unparseable start or end timestamp are invisible to
every query function — removing them changes no result (all functions are
total, so no exception is possible) — and a dataset consisting only of
such rows never reports an active charge. -/
theorem malformed_rows_excluded (sys : System) (source : Option String)
    (now minutes_offset : Int) (device_id : Option String) :
    (is_charging_now (dropMalformedDispatches sys) source now minutes_offset device_id =
      is_charging_now sys source now minutes_offset device_id) ∧
    (is_off_peak_now (dropMalformedDispatches sys) now minutes_offset =
      is_off_peak_now sys now minutes_offset) ∧
    (next_offpeak_range_utc (dropMalformedDispatches sys) now minutes_offset device_id =
      next_offpeak_range_utc sys now minutes_offset device_id) ∧
    (current_intelligent_charge_start_utc (dropMalformedDispatches sys) now device_id =
      current_intelligent_charge_start_utc sys now device_id) ∧
    ((∀ st ∈ plannedOf sys, st.startDtUtc = none ∨ st.endDtUtc = none) →
      is_charging_now sys source now minutes_offset device_id = false) := by
  refine ⟨is_charging_now_dropMalformed sys source now minutes_offset device_id,
    is_off_peak_now_dropMalformed sys now minutes_offset,
    next_offpeak_range_utc_dropMalformed sys now minutes_offset device_id,
    current_charge_start_dropMalformed sys now device_id, ?_⟩
  intro hall
  unfold is_charging_now
  rw [List.any_eq_false]
  intro st hst
  have hmem : st ∈ plannedOf sys := by
    cases hdev : isTruthy device_id with
    | false => rw [hdev] at hst; simpa using hst
    | true =>
      rw [hdev] at hst
      simp only [if_pos] at hst
      exact (List.mem_filter.mp hst).1
  have hmal : dispatch_parseable st = false := by
    unfold dispatch_parseable
    rcases hall st hmem with h | h <;> simp [h]
  simp [charging_dispatch_test_of_malformed source _ st hmal]

/-- C9 (witness): a dataset with a single row whose end timestamp failed
to parse reports no active charge. -/
theorem malformed_rows_excluded_witness :
    is_charging_now
      { tz := 0, off_peak_start := 0, off_peak_end := 60,
        primary_equipment_id := none,
        data := some
          { devices := [("ev", { statusIsSuspended := false })],
            plannedDispatches :=
              [{ startDtUtc := some 0, endDtUtc := none,
                 source := some "smart-charge", deviceId := some "ev" }],
            primary_equipment_id := some "ev" } } none 0 0 none = false :=
  (malformed_rows_excluded
    { tz := 0, off_peak_start := 0, off_peak_end := 60,
      primary_equipment_id := none,
      data := some
        { devices := [("ev", { statusIsSuspended := false })],
          plannedDispatches :=
            [{ startDtUtc := some 0, endDtUtc := none,
               source := some "smart-charge", deviceId := some "ev" }],
          primary_equipment_id := some "ev" } } none 0 0 none).2.2.2.2 (by decide)

/-- C7 (counterexample): at the instant exactly equal to a dispatch's end
timestamp, `is_charging_now` **does** report the dispatch as active
(`startUtc <= utcnow <= endUtc` is inclusive on both sides), refuting the
half-open `[start, end)` reading. -/
theorem is_charging_now_c7_counterexample :
    is_charging_now sysC7 (some "smart-charge") 30 0 none = true := by decide

/-- C7 (amended): dispatches behave as closed intervals `[start, end]`:
for every planned dispatch passing the source filter whose timestamps
parsed, `is_charging_now` at the instant equal to the dispatch's end
reports it active. -/
theorem is_charging_now_closed_interval (sys : System) (source : Option String)
    (st : Dispatch) (s e : Int) (hmem : st ∈ plannedOf sys)
    (hsrc : (source.isNone || st.source == source) = true)
    (hs : st.startDtUtc = some s) (he : st.endDtUtc = some e) (hse : s ≤ e) :
    is_charging_now sys source e 0 none = true := by
  show (plannedOf sys).any (charging_dispatch_test source (e + 0)) = true
  rw [List.any_eq_true]
  refine ⟨st, hmem, ?_⟩
  unfold charging_dispatch_test
  simp only [hsrc, if_pos, hs, he]
  simp [hse]

/-- C7 (witness): the amended statement at a dispatch `[10, 50]`
evaluated at instant 50. -/
theorem is_charging_now_closed_interval_witness :
    is_charging_now
      { tz := 0, off_peak_start := 1410, off_peak_end := 330,
        primary_equipment_id := none,
        data := some
          { devices := [("ev", { statusIsSuspended := false })],
            plannedDispatches :=
              [{ startDtUtc := some 10, endDtUtc := some 50,
                 source := some "smart-charge", deviceId := some "ev" }],
            primary_equipment_id := some "ev" } } (some "smart-charge") 50 0 none = true :=
  is_charging_now_closed_interval
    { tz := 0, off_peak_start := 1410, off_peak_end := 330,
      primary_equipment_id := none,
      data := some
        { devices := [("ev", { statusIsSuspended := false })],
          plannedDispatches :=
            [{ startDtUtc := some 10, endDtUtc := some 50,
               source := some "smart-charge", deviceId := some "ev" }],
          primary_equipment_id := some "ev" } } (some "smart-charge")
    { startDtUtc := some 10, endDtUtc := some 50,
      source := some "smart-charge", deviceId := some "ev" } 10 50
    (by decide) (by decide) rfl rfl (by decide)

theorem future_start_fold_cons (now : Int) (acc : Option Int) (p : Int × Int)
    (rest : List (Int × Int)) :
    future_start_fold now acc (p :: rest) =
      if now < p.1 then future_start_fold now (next_start_update acc p.1) rest
      else future_start_fold now acc rest := rfl

theorem eligible_cons_skip (device_id : Option String) (a : Dispatch)
    (as : List Dispatch)
    (h : (a.source == some "smart-charge") = false ∨
         (isTruthy device_id && !(a.deviceId == device_id)) = true ∨
         a.startDtUtc = none ∨ a.endDtUtc = none) :
    eligible_charge_dispatches device_id (a :: as) =
      eligible_charge_dispatches device_id as := by
  unfold eligible_charge_dispatches
  rw [List.filterMap_cons]
  rcases h with h | h | h | h
  · simp [h]
  · cases hsrc : (a.source == some "smart-charge") <;> simp [hsrc, h]
  · cases hsrc : (a.source == some "smart-charge") <;>
      cases hfilt : (isTruthy device_id && !(a.deviceId == device_id)) <;>
      simp [hsrc, hfilt, h]
  · cases hsrc : (a.source == some "smart-charge") <;>
      cases hfilt : (isTruthy device_id && !(a.deviceId == device_id)) <;>
      cases ha : a.startDtUtc <;>
      simp [hsrc, hfilt, ha, h]

theorem eligible_cons_pair (device_id : Option String) (a : Dispatch)
    (as : List Dispatch) (s e : Int)
    (hs : a.startDtUtc = some s) (he : a.endDtUtc = some e)
    (hsrc : (a.source == some "smart-charge") = true)
    (hfilt : (isTruthy device_id && !(a.deviceId == device_id)) = false) :
    eligible_charge_dispatches device_id (a :: as) =
      (s, e) :: eligible_charge_dispatches device_id as := by
  unfold eligible_charge_dispatches
  rw [List.filterMap_cons]
  simp [hsrc, hfilt, hs, he]

/-- The dispatch loop, restated over the eligible pairs: first bracketing
dispatch wins, else the accumulated earliest future start, else the
off-peak fallback. -/
theorem charge_start_loop_eq (sys : System) (now : Int) (device_id : Option String) :
    ∀ (l : List Dispatch) (acc : Option Int),
      charge_start_loop sys now device_id l acc =
        match (eligible_charge_dispatches device_id l).find?
            (fun q => decide (q.1 ≤ now) && decide (now ≤ q.2)) with
        | some p => some p.1
        | none =>
          match future_start_fold now acc (eligible_charge_dispatches device_id l) with
          | some m => some m
          | none => next_offpeak_start_utc sys now 0 device_id := by
  intro l
  induction l with
  | nil =>
    intro acc
    cases acc <;> rfl
  | cons a as ih =>
    intro acc
    by_cases hsk : (a.source == some "smart-charge") = false ∨
        (isTruthy device_id && !(a.deviceId == device_id)) = true ∨
        a.startDtUtc = none ∨ a.endDtUtc = none
    · rw [charge_start_loop_cons_skip _ _ _ _ _ _ hsk, eligible_cons_skip _ _ _ hsk]
      exact ih acc
    · push_neg at hsk
      obtain ⟨hsrc', hfilt', hstn, henn⟩ := hsk
      have hsrc : (a.source == some "smart-charge") = true := by
        revert hsrc'; cases a.source == some "smart-charge" <;> simp
      have hfilt : (isTruthy device_id && !(a.deviceId == device_id)) = false := by
        revert hfilt'; cases isTruthy device_id && !(a.deviceId == device_id) <;> simp
      obtain ⟨s, hs⟩ := Option.ne_none_iff_exists'.mp hstn
      obtain ⟨e, he⟩ := Option.ne_none_iff_exists'.mp henn
      rw [charge_start_loop_cons_eligible _ _ _ _ _ _ s e hs he hsrc hfilt,
        eligible_cons_pair _ _ _ s e hs he hsrc hfilt]
      by_cases hbr : s ≤ now ∧ now ≤ e
      · have hfind : List.find? (fun q => decide (q.1 ≤ now) && decide (now ≤ q.2))
            ((s, e) :: eligible_charge_dispatches device_id as) = some (s, e) :=
          List.find?_cons_of_pos _ (by simp [hbr.1, hbr.2])
        rw [if_pos hbr, hfind]
      · have hpred : ¬ ((fun q : Int × Int => decide (q.1 ≤ now) && decide (now ≤ q.2))
            (s, e) = true) := by
          simp only [Bool.and_eq_true, decide_eq_true_eq]
          intro hcon
          exact hbr hcon
        have hfind : List.find? (fun q => decide (q.1 ≤ now) && decide (now ≤ q.2))
            ((s, e) :: eligible_charge_dispatches device_id as) =
            List.find? (fun q => decide (q.1 ≤ now) && decide (now ≤ q.2))
              (eligible_charge_dispatches device_id as) :=
          List.find?_cons_of_neg _ hpred
        rw [if_neg hbr, hfind, future_start_fold_cons]
        by_cases hfut : now < s
        · rw [if_pos hfut, if_pos (show now < (s, e).1 from hfut)]
          exact ih _
        · rw [if_neg hfut, if_neg (show ¬ now < (s, e).1 from hfut)]
          exact ih acc

theorem future_start_fold_no_future (now : Int) :
    ∀ (l : List (Int × Int)) (acc : Option Int), (∀ p ∈ l, ¬ now < p.1) →
      future_start_fold now acc l = acc := by
  intro l
  induction l with
  | nil => intro acc _; rfl
  | cons p rest ih =>
    intro acc h
    unfold future_start_fold
    rw [if_neg (h p (List.mem_cons_self p rest))]
    exact ih acc (fun q hq => h q (List.mem_cons_of_mem p hq))

theorem future_start_fold_none (now : Int) :
    ∀ (l : List (Int × Int)) (acc : Option Int),
      future_start_fold now acc l = none →
      acc = none ∧ ∀ p ∈ l, ¬ now < p.1 := by
  intro l
  induction l with
  | nil => intro acc h; exact ⟨h, by simp⟩
  | cons p rest ih =>
    intro acc h
    rw [future_start_fold_cons] at h
    by_cases hfut : now < p.1
    · rw [if_pos hfut] at h
      have hupd := (ih _ h).1
      cases acc with
      | none => simp [next_start_update] at hupd
      | some a' =>
        simp only [next_start_update] at hupd
        by_cases hlt : p.1 < a' <;> simp [hlt] at hupd
    · rw [if_neg hfut] at h
      rcases ih acc h with ⟨h1, h2⟩
      refine ⟨h1, ?_⟩
      intro q hq
      rcases List.mem_cons.mp hq with hq | hq
      · rw [hq]; exact hfut
      · exact h2 q hq

theorem future_start_fold_min (now : Int) :
    ∀ (l : List (Int × Int)) (acc : Option Int) (m : Int),
      future_start_fold now acc l = some m →
      ((acc = some m) ∨ (∃ p ∈ l, now < p.1 ∧ p.1 = m)) ∧
      (∀ p ∈ l, now < p.1 → m ≤ p.1) ∧
      (∀ a', acc = some a' → m ≤ a') := by
  intro l
  induction l with
  | nil =>
    intro acc m h
    refine ⟨Or.inl h, by simp, ?_⟩
    intro a' ha'
    rw [ha'] at h
    injection h with h'
    omega
  | cons p rest ih =>
    intro acc m h
    rw [future_start_fold_cons] at h
    by_cases hfut : now < p.1
    · rw [if_pos hfut] at h
      rcases ih _ m h with ⟨hsrc, hmin, hacc⟩
      have hupd_none : acc = none → next_start_update acc p.1 = some p.1 := by
        intro ha; rw [ha]; rfl
      have hupd_some : ∀ a', acc = some a' →
          next_start_update acc p.1 = some (min p.1 a') := by
        intro a' ha'
        rw [ha']
        show (if p.1 < a' then some p.1 else some a') = some (min p.1 a')
        by_cases hlt : p.1 < a'
        · rw [if_pos hlt, min_eq_left (le_of_lt hlt)]
        · rw [if_neg hlt, min_eq_right (le_of_not_lt hlt)]
      refine ⟨?_, ?_, ?_⟩
      · rcases hsrc with hsrc | hsrc
        · cases hacc' : acc with
          | none =>
            right
            rw [hupd_none hacc'] at hsrc
            injection hsrc with h'
            exact ⟨p, List.mem_cons_self p rest, hfut, h'⟩
          | some a' =>
            rw [hupd_some a' hacc'] at hsrc
            injection hsrc with h'
            by_cases hpa : p.1 ≤ a'
            · right
              refine ⟨p, List.mem_cons_self p rest, hfut, ?_⟩
              rw [← h', min_eq_left hpa]
            · left
              rw [← h', min_eq_right (le_of_not_le hpa)]
        · right
          rcases hsrc with ⟨q, hq, hq1, hq2⟩
          exact ⟨q, List.mem_cons_of_mem p hq, hq1, hq2⟩
      · intro q hq hqfut
        rcases List.mem_cons.mp hq with hq | hq
        · rw [hq]
          cases hacc' : acc with
          | none => exact hacc p.1 (hupd_none hacc')
          | some a' =>
            exact le_trans (hacc (min p.1 a') (hupd_some a' hacc')) (min_le_left _ _)
        · exact hmin q hq hqfut
      · intro a' ha'
        exact le_trans (hacc (min p.1 a') (hupd_some a' ha')) (min_le_right _ _)
    · rw [if_neg hfut] at h
      rcases ih _ m h with ⟨hsrc, hmin, hacc⟩
      refine ⟨?_, ?_, hacc⟩
      · rcases hsrc with hsrc | hsrc
        · exact Or.inl hsrc
        · right
          rcases hsrc with ⟨q, hq, hq1, hq2⟩
          exact ⟨q, List.mem_cons_of_mem p hq, hq1, hq2⟩
      · intro q hq hqfut
        rcases List.mem_cons.mp hq with hq | hq
        · subst hq; exact absurd hqfut hfut
        · exact hmin q hq hqfut

/-- C10: among eligible smart-charge dispatches (device-filtered if
requested, unparseable rows excluded), if one brackets "now" then its
start is returned (the first such in list order); otherwise the earliest
future start is returned; otherwise the next unified off-peak range's
start for the same device scope. -/
theorem current_charge_start_spec (sys : System) (now : Int)
    (device_id : Option String) :
    (∀ p, (eligible_charge_dispatches device_id (plannedOf sys)).find?
        (fun q => decide (q.1 ≤ now) && decide (now ≤ q.2)) = some p →
      current_intelligent_charge_start_utc sys now device_id = some p.1) ∧
    ((eligible_charge_dispatches device_id (plannedOf sys)).find?
        (fun q => decide (q.1 ≤ now) && decide (now ≤ q.2)) = none →
      (∃ q ∈ eligible_charge_dispatches device_id (plannedOf sys), now < q.1) →
      ∃ m, current_intelligent_charge_start_utc sys now device_id = some m ∧
        (∃ q ∈ eligible_charge_dispatches device_id (plannedOf sys),
          now < q.1 ∧ q.1 = m) ∧
        (∀ q ∈ eligible_charge_dispatches device_id (plannedOf sys),
          now < q.1 → m ≤ q.1)) ∧
    ((eligible_charge_dispatches device_id (plannedOf sys)).find?
        (fun q => decide (q.1 ≤ now) && decide (now ≤ q.2)) = none →
      (∀ q ∈ eligible_charge_dispatches device_id (plannedOf sys), ¬ now < q.1) →
      current_intelligent_charge_start_utc sys now device_id =
        next_offpeak_start_utc sys now 0 device_id) := by
  have hloop := charge_start_loop_eq sys now device_id (plannedOf sys) none
  refine ⟨?_, ?_, ?_⟩
  · intro p hfind
    unfold current_intelligent_charge_start_utc
    rw [hloop, hfind]
  · intro hfind hfut
    unfold current_intelligent_charge_start_utc
    rw [hloop, hfind]
    cases hfold : future_start_fold now none
        (eligible_charge_dispatches device_id (plannedOf sys)) with
    | none =>
      rcases hfut with ⟨q, hq, hqfut⟩
      rcases future_start_fold_none now _ none hfold with ⟨_, hno⟩
      exact absurd hqfut (hno q hq)
    | some m =>
      rcases future_start_fold_min now _ none m hfold with ⟨hsrc, hmin, _⟩
      rcases hsrc with hsrc | hsrc
      · exact absurd hsrc (by simp)
      · exact ⟨m, rfl, hsrc, hmin⟩
  · intro hfind hnofut
    unfold current_intelligent_charge_start_utc
    rw [hloop, hfind, future_start_fold_no_future now _ none hnofut]

/-- C10 (witness): one future smart-charge dispatch `[50, 60]` at `now =
0` — the earliest-future-start branch returns 50. -/
theorem current_charge_start_spec_witness :
    ∃ m, current_intelligent_charge_start_utc
      { tz := 0, off_peak_start := 1410, off_peak_end := 330,
        primary_equipment_id := none,
        data := some
          { devices := [("ev", { statusIsSuspended := false })],
            plannedDispatches :=
              [{ startDtUtc := some 50, endDtUtc := some 60,
                 source := some "smart-charge", deviceId := some "ev" }],
            primary_equipment_id := some "ev" } } 0 none = some m ∧
      (∃ q ∈ eligible_charge_dispatches none
          (plannedOf
            { tz := 0, off_peak_start := 1410, off_peak_end := 330,
              primary_equipment_id := none,
              data := some
                { devices := [("ev", { statusIsSuspended := false })],
                  plannedDispatches :=
                    [{ startDtUtc := some 50, endDtUtc := some 60,
                       source := some "smart-charge", deviceId := some "ev" }],
                  primary_equipment_id := some "ev" } }), (0:Int) < q.1 ∧ q.1 = m) ∧
      (∀ q ∈ eligible_charge_dispatches none
          (plannedOf
            { tz := 0, off_peak_start := 1410, off_peak_end := 330,
              primary_equipment_id := none,
              data := some
                { devices := [("ev", { statusIsSuspended := false })],
                  plannedDispatches :=
                    [{ startDtUtc := some 50, endDtUtc := some 60,
                       source := some "smart-charge", deviceId := some "ev" }],
                  primary_equipment_id := some "ev" } }), (0:Int) < q.1 → m ≤ q.1) :=
  (current_charge_start_spec
    { tz := 0, off_peak_start := 1410, off_peak_end := 330,
      primary_equipment_id := none,
      data := some
        { devices := [("ev", { statusIsSuspended := false })],
          plannedDispatches :=
            [{ startDtUtc := some 50, endDtUtc := some 60,
               source := some "smart-charge", deviceId := some "ev" }],
          primary_equipment_id := some "ev" } } 0 none).2.1 (by decide)
    ⟨(50, 60), by decide, by decide⟩

/-- C5 (code bug): one device with two raw planned dispatches, one with
source `"smart-charge"` and one with an empty source.  After
normalization the persisted per-device and global fallbacks are updated
to `"smart-charge"`, but the empty-source dispatch is **not** backfilled:
normalization always creates `meta["source"]` (here with value `None`),
so `meta.setdefault("source", fallback)` never inserts anything, even
though the workaround's own log line claims to assume the fallback. -/
theorem normalise_planned_dispatches_c5_bug :
    (normalise_planned_dispatches
        { last_seen_planned_dispatch_sources := [],
          last_seen_planned_dispatch_source := "" } "dev-1"
        [{ energyAddedKwh := none, start := some "2025-06-01 23:30:00+0000",
           stop := some "2025-06-02 00:00:00+0000", type := some "smart-charge",
           metaSource := none, metaLocation := none },
         { energyAddedKwh := none, start := some "2025-06-02 03:00:00+0000",
           stop := some "2025-06-02 04:00:00+0000", type := some "",
           metaSource := none, metaLocation := none }]).2.map
      (fun d => d.meta.source) = [some (some "smart-charge"), some none] ∧
    List.lookup "dev-1"
      (normalise_planned_dispatches
        { last_seen_planned_dispatch_sources := [],
          last_seen_planned_dispatch_source := "" } "dev-1"
        [{ energyAddedKwh := none, start := some "2025-06-01 23:30:00+0000",
           stop := some "2025-06-02 00:00:00+0000", type := some "smart-charge",
           metaSource := none, metaLocation := none },
         { energyAddedKwh := none, start := some "2025-06-02 03:00:00+0000",
           stop := some "2025-06-02 04:00:00+0000", type := some "",
           metaSource := none, metaLocation := none }]).1.last_seen_planned_dispatch_sources
      = some "smart-charge" ∧
    (normalise_planned_dispatches
        { last_seen_planned_dispatch_sources := [],
          last_seen_planned_dispatch_source := "" } "dev-1"
        [{ energyAddedKwh := none, start := some "2025-06-01 23:30:00+0000",
           stop := some "2025-06-02 00:00:00+0000", type := some "smart-charge",
           metaSource := none, metaLocation := none },
         { energyAddedKwh := none, start := some "2025-06-02 03:00:00+0000",
           stop := some "2025-06-02 04:00:00+0000", type := some "",
           metaSource := none, metaLocation := none }]).1.last_seen_planned_dispatch_source
      = "smart-charge" := by
  decide

theorem select_go_cons (acc : Option DeviceTargetSchedule) (entry : DeviceTargetSchedule)
    (rest : List DeviceTargetSchedule) :
    select_go acc (entry :: rest) =
      if entry.has_active_target then
        match acc with
        | none => select_go (some entry) rest
        | some a =>
          if pyStrLt (atime entry) (atime a) then select_go (some entry) rest
          else select_go (some a) rest
      else select_go acc rest := rfl

theorem select_go_cons_inactive (acc : Option DeviceTargetSchedule)
    (entry : DeviceTargetSchedule) (rest : List DeviceTargetSchedule)
    (h : entry.has_active_target = false) :
    select_go acc (entry :: rest) = select_go acc rest := by
  rw [select_go_cons]
  simp only [h, Bool.false_eq_true, if_neg, not_false_eq_true]

theorem select_go_cons_none (entry : DeviceTargetSchedule)
    (rest : List DeviceTargetSchedule) (h : entry.has_active_target = true) :
    select_go none (entry :: rest) = select_go (some entry) rest := by
  rw [select_go_cons]
  simp only [h, if_pos]

theorem select_go_cons_some_lt (a entry : DeviceTargetSchedule)
    (rest : List DeviceTargetSchedule) (h : entry.has_active_target = true)
    (hlt : pyStrLt (atime entry) (atime a) = true) :
    select_go (some a) (entry :: rest) = select_go (some entry) rest := by
  rw [select_go_cons]
  simp only [h, if_pos, hlt]

theorem select_go_cons_some_ge (a entry : DeviceTargetSchedule)
    (rest : List DeviceTargetSchedule) (h : entry.has_active_target = true)
    (hge : pyStrLt (atime entry) (atime a) = false) :
    select_go (some a) (entry :: rest) = select_go (some a) rest := by
  rw [select_go_cons]
  simp only [h, if_pos, hge, Bool.false_eq_true, if_neg, not_false_eq_true]

theorem pyStrLt_false_iff (s t : String) : pyStrLt s t = false ↔ t ≤ s := by
  constructor
  · intro h
    rcases Bool.eq_false_iff.mp h with h'
    exact le_of_not_lt (fun hc => h' ((pyStrLt_iff s t).mpr hc))
  · intro h
    cases hb : pyStrLt s t with
    | false => rfl
    | true => exact absurd ((pyStrLt_iff s t).mp hb) (not_lt_of_le h)

theorem filter_cons_pos' {α : Type} (p : α → Bool) (a : α) (l : List α)
    (h : p a = true) : List.filter p (a :: l) = a :: List.filter p l := by
  rw [List.filter_cons, if_pos h]

theorem filter_cons_neg' {α : Type} (p : α → Bool) (a : α) (l : List α)
    (h : p a = false) : List.filter p (a :: l) = List.filter p l := by
  rw [List.filter_cons]
  simp [h]

/-- What the scan started at an active candidate `a` computes: an active
entry, minimal among the actives of `a :: l` (strictly below `a` if it
came from `l`), and the first entry of `a :: l` attaining that minimal
target time. -/
theorem select_go_some_spec (a : DeviceTargetSchedule)
    (ha : a.has_active_target = true) :
    ∀ l : List DeviceTargetSchedule, ∃ e,
      select_go (some a) l = some e ∧ e.has_active_target = true ∧
      (e = a ∨ (e ∈ l ∧ atime e < atime a)) ∧
      (∀ x ∈ a :: l, x.has_active_target = true → atime e ≤ atime x) ∧
      ((a :: l).filter
        (fun x => x.has_active_target && (atime x == atime e))).head? = some e := by
  intro l
  induction l generalizing a with
  | nil =>
    refine ⟨a, rfl, ha, Or.inl rfl, ?_, ?_⟩
    · intro x hx _
      rcases List.mem_singleton.mp hx with rfl
      exact le_refl _
    · rw [filter_cons_pos' _ a [] (by simp [ha])]
      rfl
  | cons b t ih =>
    by_cases hbq : b.has_active_target = true
    · by_cases hltq : pyStrLt (atime b) (atime a) = true
      · rcases ih b hbq with ⟨e, heq, hact, hsrc, hmin, hhead⟩
        have hba : atime b < atime a := (pyStrLt_iff _ _).mp hltq
        have heb : atime e ≤ atime b := hmin b (List.mem_cons_self b t) hbq
        refine ⟨e, ?_, hact, ?_, ?_, ?_⟩
        · rw [select_go_cons_some_lt a b t hbq hltq]; exact heq
        · rcases hsrc with rfl | ⟨hmem, hlt'⟩
          · exact Or.inr ⟨List.mem_cons_self e t, hba⟩
          · exact Or.inr ⟨List.mem_cons_of_mem b hmem, lt_trans hlt' hba⟩
        · intro x hx hxact
          rcases List.mem_cons.mp hx with rfl | hx
          · exact le_of_lt (lt_of_le_of_lt heb hba)
          · exact hmin x hx hxact
        · have hne : (fun x => x.has_active_target && (atime x == atime e)) a = false := by
            simp only [Bool.and_eq_false_iff, beq_eq_false_iff_ne, ne_eq]
            right
            exact (ne_of_gt (lt_of_le_of_lt heb hba))
          rw [filter_cons_neg' _ a (b :: t) hne]
          exact hhead
      · have hge : pyStrLt (atime b) (atime a) = false := Bool.eq_false_iff.mpr hltq
        have hab : atime a ≤ atime b := (pyStrLt_false_iff _ _).mp hge
        rcases ih a ha with ⟨e, heq, hact, hsrc, hmin, hhead⟩
        have hea : atime e ≤ atime a := hmin a (List.mem_cons_self a t) ha
        refine ⟨e, ?_, hact, ?_, ?_, ?_⟩
        · rw [select_go_cons_some_ge a b t hbq hge]; exact heq
        · rcases hsrc with rfl | ⟨hmem, hlt'⟩
          · exact Or.inl rfl
          · exact Or.inr ⟨List.mem_cons_of_mem b hmem, hlt'⟩
        · intro x hx hxact
          rcases List.mem_cons.mp hx with rfl | hx
          · exact hmin x (List.mem_cons_self _ _) hxact
          · rcases List.mem_cons.mp hx with rfl | hx
            · exact le_trans hea hab
            · exact hmin x (List.mem_cons_of_mem a hx) hxact
        · rcases hsrc with rfl | ⟨hmem, hlt'⟩
          · have hpa : (fun x => x.has_active_target && (atime x == atime e)) e = true := by
              simp [hact]
            rw [filter_cons_pos' _ e (b :: t) hpa]
            rfl
          · have hna : (fun x => x.has_active_target && (atime x == atime e)) a = false := by
              simp only [Bool.and_eq_false_iff, beq_eq_false_iff_ne, ne_eq]
              right
              exact (ne_of_gt hlt')
            have hnb : (fun x => x.has_active_target && (atime x == atime e)) b = false := by
              simp only [Bool.and_eq_false_iff, beq_eq_false_iff_ne, ne_eq]
              right
              exact (ne_of_gt (lt_of_lt_of_le hlt' hab))
            rw [filter_cons_neg' _ a (b :: t) hna, filter_cons_neg' _ b t hnb]
            rw [filter_cons_neg' _ a t hna] at hhead
            exact hhead
    · have hb : b.has_active_target = false := Bool.eq_false_iff.mpr hbq
      rcases ih a ha with ⟨e, heq, hact, hsrc, hmin, hhead⟩
      refine ⟨e, ?_, hact, ?_, ?_, ?_⟩
      · rw [select_go_cons_inactive _ b t hb]; exact heq
      · rcases hsrc with rfl | ⟨hmem, hlt'⟩
        · exact Or.inl rfl
        · exact Or.inr ⟨List.mem_cons_of_mem b hmem, hlt'⟩
      · intro x hx hxact
        rcases List.mem_cons.mp hx with rfl | hx
        · exact hmin x (List.mem_cons_self _ _) hxact
        · rcases List.mem_cons.mp hx with rfl | hx
          · exact absurd hxact (by simp [hb])
          · exact hmin x (List.mem_cons_of_mem a hx) hxact
      · have hnb : (fun x => x.has_active_target && (atime x == atime e)) b = false := by
          simp [hb]
        by_cases hta : (fun x => x.has_active_target && (atime x == atime e)) a = true
        · rw [filter_cons_pos' _ a (b :: t) hta, filter_cons_neg' _ b t hnb]
          rw [filter_cons_pos' _ a t hta] at hhead
          exact hhead
        · have hta' : (fun x => x.has_active_target && (atime x == atime e)) a = false :=
            Bool.eq_false_iff.mpr hta
          rw [filter_cons_neg' _ a (b :: t) hta', filter_cons_neg' _ b t hnb]
          rw [filter_cons_neg' _ a t hta'] at hhead
          exact hhead

/-- The full selection: `none` iff no entry has an active target; a
`some` result is an active entry with the lexicographically smallest
target time and is the first entry of the list attaining it. -/
theorem select_active_entry_spec :
    ∀ l : List DeviceTargetSchedule,
      (select_active_entry l = none ↔ ∀ x ∈ l, x.has_active_target = false) ∧
      (∀ e, select_active_entry l = some e →
        e.has_active_target = true ∧
        (∀ x ∈ l, x.has_active_target = true → atime e ≤ atime x) ∧
        (l.filter (fun x => x.has_active_target && (atime x == atime e))).head? =
          some e) := by
  intro l
  induction l with
  | nil =>
    refine ⟨by simp [select_active_entry, select_go], ?_⟩
    intro e he
    exact absurd he (by simp [select_active_entry, select_go])
  | cons b t ih =>
    by_cases hbq : b.has_active_target = true
    · have hsel : select_active_entry (b :: t) = select_go (some b) t :=
        select_go_cons_none b t hbq
      rcases select_go_some_spec b hbq t with ⟨e, heq, hact, _, hmin, hhead⟩
      constructor
      · rw [hsel, heq]
        constructor
        · intro h; exact absurd h (by simp)
        · intro h; exact absurd hbq (by simp [h b (List.mem_cons_self b t)])
      · intro e' he'
        rw [hsel, heq] at he'
        injection he' with he'
        subst he'
        exact ⟨hact, hmin, hhead⟩
    · have hb : b.has_active_target = false := Bool.eq_false_iff.mpr hbq
      have hsel : select_active_entry (b :: t) = select_active_entry t :=
        select_go_cons_inactive none b t hb
      rcases ih with ⟨ihnone, ihsome⟩
      constructor
      · rw [hsel, ihnone]
        constructor
        · intro h
          intro x hx
          rcases List.mem_cons.mp hx with rfl | hx
          · exact hb
          · exact h x hx
        · intro h x hx
          exact h x (List.mem_cons_of_mem b hx)
      · intro e he
        rw [hsel] at he
        rcases ihsome e he with ⟨hact, hmin, hhead⟩
        refine ⟨hact, ?_, ?_⟩
        · intro x hx hxact
          rcases List.mem_cons.mp hx with rfl | hx
          · exact absurd hxact (by simp [hb])
          · exact hmin x hx hxact
        · have hnb : (fun x => x.has_active_target && (atime x == atime e)) b = false := by
            simp [hb]
          rw [filter_cons_neg' _ b t hnb]
          exact hhead

theorem digitChar_lt_iff (a b : Nat) (ha : a ≤ 9) (hb : b ≤ 9) :
    digitChar a < digitChar b ↔ a < b := by
  interval_cases a <;> interval_cases b <;> decide

theorem charListLt_cons_iff (x y : Char) (xs ys : List Char) :
    (charListLt (x :: xs) (y :: ys) = true) ↔
      (x < y ∨ (¬ x < y ∧ ¬ y < x ∧ charListLt xs ys = true)) := by
  have hstep : charListLt (x :: xs) (y :: ys) =
      if x < y then true else if y < x then false else charListLt xs ys := rfl
  rw [hstep]
  by_cases h1 : x < y
  · rw [if_pos h1]; simp [h1]
  · rw [if_neg h1]
    by_cases h2 : y < x
    · rw [if_pos h2]; simp [h1, h2]
    · rw [if_neg h2]; simp [h1, h2]

/-- Lexicographic comparison of zero-padded `HH:MM` strings is the
chronological comparison of the times they denote. -/
theorem hhmm_lt_iff_chronological (h1 m1 h2 m2 : Nat)
    (hh1 : h1 ≤ 23) (hm1 : m1 ≤ 59) (hh2 : h2 ≤ 23) (hm2 : m2 ≤ 59) :
    (pyStrLt (hhmmString h1 m1) (hhmmString h2 m2) = true ↔
      60 * h1 + m1 < 60 * h2 + m2) := by
  show charListLt
      [digitChar (h1 / 10), digitChar (h1 % 10), ':',
        digitChar (m1 / 10), digitChar (m1 % 10)]
      [digitChar (h2 / 10), digitChar (h2 % 10), ':',
        digitChar (m2 / 10), digitChar (m2 % 10)] = true ↔ _
  rw [charListLt_cons_iff, charListLt_cons_iff, charListLt_cons_iff,
    charListLt_cons_iff, charListLt_cons_iff]
  rw [digitChar_lt_iff (h1 / 10) (h2 / 10) (by omega) (by omega),
    digitChar_lt_iff (h2 / 10) (h1 / 10) (by omega) (by omega),
    digitChar_lt_iff (h1 % 10) (h2 % 10) (by omega) (by omega),
    digitChar_lt_iff (h2 % 10) (h1 % 10) (by omega) (by omega),
    digitChar_lt_iff (m1 / 10) (m2 / 10) (by omega) (by omega),
    digitChar_lt_iff (m2 / 10) (m1 / 10) (by omega) (by omega),
    digitChar_lt_iff (m1 % 10) (m2 % 10) (by omega) (by omega),
    digitChar_lt_iff (m2 % 10) (m1 % 10) (by omega) (by omega)]
  have hcolon : ¬ (':' : Char) < ':' := by decide
  have hnil : charListLt [] [] = false := rfl
  rw [hnil]
  simp only [hcolon, false_or, not_false_eq_true, true_and, Bool.false_eq_true,
    and_false, or_false]
  omega

/-- C6: `get_ready_time_summary` designates as primary the first-seen
device attaining the lexicographically smallest non-empty active-mode
target time: if no device target is active the summary carries no target
and no primary device; a selected entry is active, minimal, and the first
entry attaining its time; and on zero-padded `HH:MM` strings the
lexicographic order is the chronological order. -/
theorem get_ready_time_summary_spec (sys : System) (now : Int)
    (device_id : Option String) :
    ((∀ e ∈ (get_ready_time_summary sys now device_id).device_targets,
        e.has_active_target = false) →
      (get_ready_time_summary sys now device_id).active_target_time = none ∧
      (get_ready_time_summary sys now device_id).target_device_id = none ∧
      (get_ready_time_summary sys now device_id).target_device_label = none) ∧
    (∀ e, select_active_entry
        (get_ready_time_summary sys now device_id).device_targets = some e →
      (get_ready_time_summary sys now device_id).active_target_time =
        e.active_target_time ∧
      (get_ready_time_summary sys now device_id).target_device_id =
        some e.device_id ∧
      (get_ready_time_summary sys now device_id).target_device_label =
        some e.label) ∧
    (∀ (l : List DeviceTargetSchedule) e, select_active_entry l = some e →
      e.has_active_target = true ∧
      (∀ x ∈ l, x.has_active_target = true → atime e ≤ atime x) ∧
      (l.filter (fun x => x.has_active_target && (atime x == atime e))).head? =
        some e) ∧
    (∀ l : List DeviceTargetSchedule,
      select_active_entry l = none ↔ ∀ x ∈ l, x.has_active_target = false) ∧
    (∀ h1 m1 h2 m2 : Nat, h1 ≤ 23 → m1 ≤ 59 → h2 ≤ 23 → m2 ≤ 59 →
      (pyStrLt (hhmmString h1 m1) (hhmmString h2 m2) = true ↔
        60 * h1 + m1 < 60 * h2 + m2)) := by
  refine ⟨?_, ?_, ?_, ?_, ?_⟩
  · intro hall
    have hnone : select_active_entry
        (get_ready_time_summary sys now device_id).device_targets = none :=
      (select_active_entry_spec _).1.mpr hall
    refine ⟨?_, ?_, ?_⟩
    · show (select_active_entry
          (get_ready_time_summary sys now device_id).device_targets).bind
        DeviceTargetSchedule.active_target_time = none
      rw [hnone]; rfl
    · show (select_active_entry
          (get_ready_time_summary sys now device_id).device_targets).map
        DeviceTargetSchedule.device_id = none
      rw [hnone]; rfl
    · show (select_active_entry
          (get_ready_time_summary sys now device_id).device_targets).map
        DeviceTargetSchedule.label = none
      rw [hnone]; rfl
  · intro e he
    refine ⟨?_, ?_, ?_⟩
    · show (select_active_entry
          (get_ready_time_summary sys now device_id).device_targets).bind
        DeviceTargetSchedule.active_target_time = e.active_target_time
      rw [he]; rfl
    · show (select_active_entry
          (get_ready_time_summary sys now device_id).device_targets).map
        DeviceTargetSchedule.device_id = some e.device_id
      rw [he]; rfl
    · show (select_active_entry
          (get_ready_time_summary sys now device_id).device_targets).map
        DeviceTargetSchedule.label = some e.label
      rw [he]; rfl
  · intro l e he
    exact (select_active_entry_spec l).2 e he
  · intro l
    exact (select_active_entry_spec l).1
  · exact hhmm_lt_iff_chronological

/-- C6 (witness): on `sysC6` the primary is `"dev-b"` with target
`"07:30"`, and `"07:30" < "08:00"` lexicographically because 450 < 480
minutes. -/
theorem get_ready_time_summary_spec_witness :
    (get_ready_time_summary sysC6 0 none).active_target_time = some "07:30" ∧
    (get_ready_time_summary sysC6 0 none).target_device_id = some "dev-b" ∧
    pyStrLt (hhmmString 7 30) (hhmmString 8 0) = true := by
  have he : select_active_entry
      (get_ready_time_summary sysC6 0 none).device_targets = some
        { device_id := "dev-b", label := "Car B",
          weekday_target_time := some "07:30", weekend_target_time := none,
          active_target_time := some "07:30", weekday_target_soc := some 90,
          weekend_target_soc := none, minimum_soc := none, maximum_soc := none } := by
    decide
  have h := (get_ready_time_summary_spec sysC6 0 none).2.1 _ he
  refine ⟨h.1.trans rfl, h.2.1.trans rfl, ?_⟩
  exact ((get_ready_time_summary_spec sysC6 0 none).2.2.2.2 7 30 8 0
    (by decide) (by decide) (by decide) (by decide)).mpr (by decide)

theorem round_half_even_abs (x : ℚ) : |(round_half_even x : ℚ) - x| ≤ 1/2 := by
  have h0 : (⌊x⌋ : ℚ) ≤ x := Int.floor_le x
  have h1 : x < ⌊x⌋ + 1 := Int.lt_floor_add_one x
  unfold round_half_even
  by_cases hr : x - ⌊x⌋ < 1/2
  · rw [if_pos hr, abs_le]
    constructor <;> linarith
  · rw [if_neg hr]
    by_cases hr2 : (1:ℚ)/2 < x - ⌊x⌋
    · rw [if_pos hr2]
      push_cast
      rw [abs_le]
      constructor <;> linarith
    · rw [if_neg hr2]
      by_cases hp : ⌊x⌋ % 2 = 0
      · rw [if_pos hp, abs_le]
        constructor <;> linarith
      · rw [if_neg hp]
        push_cast
        rw [abs_le]
        constructor <;> linarith

/-- C8: the target SOC is rounded **up** to the nearest multiple of 5
(83 ↦ 85); the ready time is rounded to the nearest half hour (6.2 ↦
6.0); and, after rounding, a ready time outside [4, 11] or a SOC outside
[10, 100] yields the corresponding descriptive validation error instead
of a request payload (the time check first), all before any network
interaction. -/
theorem set_charge_preferences_spec :
    (∀ n : Int, set_charge_preferences_round_soc n % 5 = 0 ∧
      n ≤ set_charge_preferences_round_soc n ∧
      set_charge_preferences_round_soc n < n + 5) ∧
    set_charge_preferences_round_soc 83 = 85 ∧
    (∀ q : ℚ, (∃ k : Int, set_charge_preferences_round_ready q = (k : ℚ) / 2) ∧
      |set_charge_preferences_round_ready q - q| ≤ 1/4) ∧
    set_charge_preferences_round_ready (31/5 : ℚ) = 6 ∧
    (∀ (q : ℚ) (n : Int), set_charge_preferences_checked q n =
        Except.error "Target time must be between 4AM and 11AM" ↔
      (set_charge_preferences_round_ready q < 4 ∨
        11 < set_charge_preferences_round_ready q)) ∧
    (∀ (q : ℚ) (n : Int), set_charge_preferences_checked q n =
        Except.error "Target SOC percent must be between 10 and 100" ↔
      (¬ (set_charge_preferences_round_ready q < 4 ∨
            11 < set_charge_preferences_round_ready q) ∧
        (set_charge_preferences_round_soc n < 10 ∨
          100 < set_charge_preferences_round_soc n))) ∧
    (∀ (q : ℚ) (n : Int),
      (¬ (set_charge_preferences_round_ready q < 4 ∨
            11 < set_charge_preferences_round_ready q) ∧
       ¬ (set_charge_preferences_round_soc n < 10 ∨
            100 < set_charge_preferences_round_soc n)) ↔
      ∃ payload, set_charge_preferences_checked q n = Except.ok payload) := by
  refine ⟨?_, ?_, ?_, ?_, ?_, ?_, ?_⟩
  · intro n
    refine ⟨Int.mul_emod_right 5 _, ?_, ?_⟩
    · have h := Int.le_ceil ((n : ℚ) / 5)
      have h5 : (n : ℚ) ≤ 5 * (⌈(n : ℚ) / 5⌉ : ℚ) := by
        have := mul_le_mul_of_nonneg_left h (by norm_num : (0:ℚ) ≤ 5)
        calc (n : ℚ) = 5 * ((n : ℚ) / 5) := by ring
          _ ≤ 5 * (⌈(n : ℚ) / 5⌉ : ℚ) := this
      unfold set_charge_preferences_round_soc
      exact_mod_cast h5
    · have h := Int.ceil_lt_add_one ((n : ℚ) / 5)
      have h5 : 5 * (⌈(n : ℚ) / 5⌉ : ℚ) < (n : ℚ) + 5 := by
        have := mul_lt_mul_of_pos_left h (by norm_num : (0:ℚ) < 5)
        calc 5 * (⌈(n : ℚ) / 5⌉ : ℚ) < 5 * ((n : ℚ) / 5 + 1) := this
          _ = (n : ℚ) + 5 := by ring
      unfold set_charge_preferences_round_soc
      exact_mod_cast h5
  · have hceil : ⌈(83 : ℚ) / 5⌉ = 17 := by
      rw [Int.ceil_eq_iff]
      norm_num
    unfold set_charge_preferences_round_soc
    rw [show ((83 : Int) : ℚ) = 83 by norm_num, hceil]
    norm_num
  · intro q
    constructor
    · exact ⟨round_half_even (q / (1/2 : ℚ)), by
        unfold set_charge_preferences_round_ready; ring⟩
    · have habs := round_half_even_abs (q / (1/2 : ℚ))
      have h2 : q / (1/2 : ℚ) = 2 * q := by ring
      rw [h2] at habs
      unfold set_charge_preferences_round_ready
      rw [h2]
      have : (1/2 : ℚ) * (round_half_even (2 * q) : ℚ) - q =
          (1/2) * ((round_half_even (2 * q) : ℚ) - 2 * q) := by ring
      rw [this, abs_mul, abs_of_pos (by norm_num : (0:ℚ) < 1/2)]
      linarith
  · have h2q : (31/5 : ℚ) / (1/2 : ℚ) = 62/5 := by norm_num
    have hfl : ⌊(62/5 : ℚ)⌋ = 12 := by
      rw [Int.floor_eq_iff]
      norm_num
    have hcond : (62/5 : ℚ) - (⌊(62/5 : ℚ)⌋ : ℚ) < 1/2 := by
      rw [hfl]; norm_num
    have hround : round_half_even (62/5 : ℚ) = 12 := by
      unfold round_half_even
      rw [if_pos hcond, hfl]
    unfold set_charge_preferences_round_ready
    rw [h2q, hround]
    norm_num
  · intro q n
    constructor
    · intro h
      by_cases h1 : set_charge_preferences_round_ready q < 4 ∨
          11 < set_charge_preferences_round_ready q
      · exact h1
      · unfold set_charge_preferences_checked at h
        rw [if_neg h1] at h
        by_cases h2 : set_charge_preferences_round_soc n < 10 ∨
            100 < set_charge_preferences_round_soc n
        · rw [if_pos h2] at h
          injection h with h'
          exact absurd h' (by decide)
        · rw [if_neg h2] at h
          exact Except.noConfusion h
    · intro h
      unfold set_charge_preferences_checked
      rw [if_pos h]
  · intro q n
    constructor
    · intro h
      by_cases h1 : set_charge_preferences_round_ready q < 4 ∨
          11 < set_charge_preferences_round_ready q
      · unfold set_charge_preferences_checked at h
        rw [if_pos h1] at h
        injection h with h'
        exact absurd h' (by decide)
      · refine ⟨h1, ?_⟩
        unfold set_charge_preferences_checked at h
        rw [if_neg h1] at h
        by_cases h2 : set_charge_preferences_round_soc n < 10 ∨
            100 < set_charge_preferences_round_soc n
        · exact h2
        · rw [if_neg h2] at h
          exact Except.noConfusion h
    · intro h
      unfold set_charge_preferences_checked
      rw [if_neg h.1, if_pos h.2]
  · intro q n
    constructor
    · intro h
      unfold set_charge_preferences_checked
      rw [if_neg h.1, if_neg h.2]
      exact ⟨_, rfl⟩
    · intro h
      rcases h with ⟨payload, hp⟩
      by_cases h1 : set_charge_preferences_round_ready q < 4 ∨
          11 < set_charge_preferences_round_ready q
      · unfold set_charge_preferences_checked at hp
        rw [if_pos h1] at hp
        exact Except.noConfusion hp
      · by_cases h2 : set_charge_preferences_round_soc n < 10 ∨
            100 < set_charge_preferences_round_soc n
        · unfold set_charge_preferences_checked at hp
          rw [if_neg h1, if_pos h2] at hp
          exact Except.noConfusion hp
        · exact ⟨h1, h2⟩

/-- C8 (witness): the ceiling rounding at the claim's concrete input,
obtained from the theorem. -/
theorem set_charge_preferences_spec_witness :
    set_charge_preferences_round_soc 83 = 85 :=
  set_charge_preferences_spec.2.1
